import Mathlib

/-!
Verification of the RESOFLY detect → fuse → track → alert core.

This file gives a shallow embedding, in Lean 4, of the pure logic of the
repository's core modules and proves the specification claims about them:

* `src/backend/fusion_engine.py`  — `FusionEngine` (projection, IoU, fusion),
* `src/backend/thermal_detector.py` — the contour-filtering / confidence /
  sorting stage of `ThermalDetector.detect`,
* `src/backend/tracker.py`        — `TrackedObject`, `Tracker.update`,
* `src/backend/alert_manager.py`  — `AlertManager.check_and_emit`.

Modelling conventions, used throughout:

* Python floats are modelled as exact rationals (`ℚ`); decimal literals such
  as `0.6` are taken at their intended exact value (`3/5`).
* Python's `int(x)` on a number is truncation toward zero (`pyTrunc`);
  Python's `round(x, p)` is round-half-to-even at `p` decimal digits
  (`pyRound`).
* Python `dict`s keyed by object id are association lists kept in insertion
  order, matching the insertion-ordered semantics of `dict`/`OrderedDict`;
  `dict.get(k, d)` is `(List.lookup k l).getD d`.
* `numpy` square roots are eliminated: every comparison the source makes on a
  Euclidean distance `sqrt(s)` against a bound `m` is modelled by the
  equivalent exact comparison on `s` and `m^2` (with the sign of `m` handled
  explicitly), which is faithful because `sqrt` is monotone.
* External `cv2` stages (Gaussian blur, morphology, contour extraction) are
  opaque: their numeric outputs (contour area, hull area, bounding rectangle,
  region statistics) are taken as inputs to the embedded pure code that
  consumes them, exactly at the boundary where the Python source reads them.
-/

/-- Python `int(x)`: truncation of a rational toward zero. -/
def pyTrunc (q : ℚ) : ℤ :=
  if q < 0 then -⌊-q⌋ else ⌊q⌋

/-- Round a rational to the nearest integer, ties to even
(the rounding used by Python's builtin `round`). -/
def halfEvenRound (q : ℚ) : ℤ :=
  let f := ⌊q⌋
  let r := q - (f : ℚ)
  if r < 1/2 then f
  else if (1 : ℚ)/2 < r then f + 1
  else if f % 2 = 0 then f else f + 1

/-- Python `round(q, p)`: round half to even at `p` decimal digits. -/
def pyRound (q : ℚ) (p : ℕ) : ℚ :=
  (halfEvenRound (q * (10 : ℚ) ^ p) : ℚ) / (10 : ℚ) ^ p

/-- An axis-aligned `(x, y, w, h)` bounding box in pixel coordinates. -/
structure Box where
  x : ℤ
  y : ℤ
  w : ℤ
  h : ℤ
  deriving DecidableEq

/-!
## FusionEngine — `src/backend/fusion_engine.py`
-/

/-- `FusionEngine` state: the precomputed scale factors and the IoU
threshold (`__init__` / `set_resolutions` store exactly these). -/
structure FusionEngine where
  scale_x : ℚ
  scale_y : ℚ
  iou_threshold : ℚ
  deriving DecidableEq

/-- `FusionEngine.__init__`: scales are `rgb / thermal` per axis. -/
def mkFusionEngine (thermal_w thermal_h rgb_w rgb_h : ℚ) (iouThr : ℚ) : FusionEngine :=
  { scale_x := rgb_w / thermal_w
    scale_y := rgb_h / thermal_h
    iou_threshold := iouThr }

/-- `FusionEngine.project_thermal_to_rgb`: scale each component and truncate
with `int(...)`. -/
def projectThermalToRgb (e : FusionEngine) (b : Box) : Box :=
  { x := pyTrunc ((b.x : ℚ) * e.scale_x)
    y := pyTrunc ((b.y : ℚ) * e.scale_y)
    w := pyTrunc ((b.w : ℚ) * e.scale_x)
    h := pyTrunc ((b.h : ℚ) * e.scale_y) }

/-- The `inter = ix * iy` intersection area computed inside
`FusionEngine._compute_iou`. -/
def iouIntersection (a b : Box) : ℤ :=
  max 0 (min (a.x + a.w) (b.x + b.w) - max a.x b.x) *
    max 0 (min (a.y + a.h) (b.y + b.h) - max a.y b.y)

/-- The `union = area_a + area_b - inter` value computed inside
`FusionEngine._compute_iou`. -/
def iouUnion (a b : Box) : ℤ :=
  a.w * a.h + b.w * b.h - iouIntersection a b

/-- `FusionEngine._compute_iou`: axis-aligned intersection over union,
returning `0.0` unless the union area is positive. -/
def computeIoU (a b : Box) : ℚ :=
  if 0 < iouUnion a b then (iouIntersection a b : ℚ) / (iouUnion a b : ℚ) else 0

/-- Two boxes are non-overlapping when they are separated along the x or the
y axis (their interiors share no point). -/
def boxesDisjoint (a b : Box) : Prop :=
  a.x + a.w ≤ b.x ∨ b.x + b.w ≤ a.x ∨ a.y + a.h ≤ b.y ∨ b.y + b.h ≤ a.y

/-- An RGB detection dict as consumed by `fuse`: `bbox` and `confidence`. -/
structure RgbDet where
  bbox : Box
  confidence : ℚ
  deriving DecidableEq

/-- A thermal detection dict as consumed by `fuse`: `bbox` and `confidence`
are read with `[...]`, `centroid` and `max_temp` with `.get` defaults. -/
structure ThermalDet where
  bbox : Box
  centroid : Option (ℤ × ℤ)
  max_temp : Option ℚ
  confidence : ℚ
  deriving DecidableEq

/-- One entry of the unified detection list `fuse` returns; `Option` fields
mirror dict keys that are present only on some branches. -/
structure FusedDet where
  bbox : Box
  centroid : ℤ × ℤ
  max_temp : ℚ
  confidence : ℚ
  validation_type : String
  iou : Option ℚ
  thermal_bbox : Option Box
  rgb_bbox : Option Box
  deriving DecidableEq

/-- One iteration of the inner loop of pass 1 of `fuse`: skip consumed
indices, otherwise keep the incumbent unless the candidate's IoU is strictly
larger. -/
def bestStep (projected : Box) (used : List ℕ) (best : ℚ × ℤ) (jd : ℕ × RgbDet) : ℚ × ℤ :=
  if jd.1 ∈ used then best
  else
    let i := computeIoU projected jd.2.bbox
    if best.1 < i then (i, (jd.1 : ℤ)) else best

/-- The inner loop of pass 1 of `fuse`: the best (highest-IoU) not-yet-used
RGB candidate for one projected thermal box, as `(best_iou, best_idx)`
starting from `(0.0, -1)`; a candidate replaces the incumbent only on a
strictly larger IoU, so the earliest maximiser wins. -/
def bestMatch (projected : Box) (rgb : List RgbDet) (used : List ℕ) : ℚ × ℤ :=
  rgb.enum.foldl (bestStep projected used) (0, -1)

/-- Placeholder used only for (provably in-range) list indexing. -/
def junkRgb : RgbDet :=
  { bbox := { x := 0, y := 0, w := 0, h := 0 }, confidence := 0 }

/-- The `FUSED_VALIDATED` output dict built when a thermal/RGB pair matches. -/
def fusedEntry (td : ThermalDet) (rd : RgbDet) (projected : Box) (bi : ℚ) : FusedDet :=
  { bbox := projected
    centroid := td.centroid.getD (0, 0)
    max_temp := td.max_temp.getD 0
    confidence := pyRound (td.confidence * (6/10) + rd.confidence * (4/10)) 3
    validation_type := "FUSED_VALIDATED"
    iou := some (pyRound bi 3)
    thermal_bbox := some td.bbox
    rgb_bbox := some rd.bbox }

/-- The `THERMAL_ONLY` output dict built when no RGB candidate matches. -/
def thermalOnlyEntry (td : ThermalDet) (projected : Box) : FusedDet :=
  { bbox := projected
    centroid := td.centroid.getD (0, 0)
    max_temp := td.max_temp.getD 0
    confidence := pyRound (td.confidence * (7/10)) 3
    validation_type := "THERMAL_ONLY"
    iou := none
    thermal_bbox := some td.bbox
    rgb_bbox := none }

/-- The `RGB_ONLY` output dict built in pass 2 for an unconsumed RGB
detection. -/
def rgbOnlyEntry (rd : RgbDet) : FusedDet :=
  { bbox := rd.bbox
    centroid := (pyTrunc ((rd.bbox.x : ℚ) + (rd.bbox.w : ℚ) / 2),
                 pyTrunc ((rd.bbox.y : ℚ) + (rd.bbox.h : ℚ) / 2))
    max_temp := 0
    confidence := pyRound (rd.confidence * (1/2)) 3
    validation_type := "RGB_ONLY"
    iou := none
    thermal_bbox := none
    rgb_bbox := some rd.bbox }

/-- Pass 1 of `fuse`: walk the thermal list, threading the `used_rgb` index
set; returns the entries appended so far and the final `used_rgb`. -/
def fusePass1 (e : FusionEngine) (rgb : List RgbDet) :
    List ThermalDet → List ℕ → List FusedDet × List ℕ
  | [], used => ([], used)
  | td :: rest, used =>
    let projected := projectThermalToRgb e td.bbox
    let bm := bestMatch projected rgb used
    if e.iou_threshold ≤ bm.1 ∧ 0 ≤ bm.2 then
      let j := bm.2.toNat
      let rd := rgb.getD j junkRgb
      let tail := fusePass1 e rgb rest (j :: used)
      (fusedEntry td rd projected bm.1 :: tail.1, tail.2)
    else
      let tail := fusePass1 e rgb rest used
      (thermalOnlyEntry td projected :: tail.1, tail.2)

/-- Pass 2 of `fuse`: every RGB detection whose index was never consumed
becomes its own `RGB_ONLY` entry, in input order. -/
def fusePass2 (rgb : List RgbDet) (used : List ℕ) : List FusedDet :=
  rgb.enum.filterMap (fun jd => if jd.1 ∈ used then none else some (rgbOnlyEntry jd.2))

/-- `FusionEngine.fuse`: pass 1 over the thermal list, then pass 2 over the
leftover RGB list. -/
def fuse (e : FusionEngine) (thermal_dets : List ThermalDet) (rgb_dets : List RgbDet) :
    List FusedDet :=
  let p1 := fusePass1 e rgb_dets thermal_dets []
  p1.1 ++ fusePass2 rgb_dets p1.2

example :
    computeIoU { x := 0, y := 0, w := 10, h := 10 } { x := 0, y := 0, w := 10, h := 5 }
      = 1/2 := by norm_num [computeIoU, iouUnion, iouIntersection]

/-!
## Claim C7 — IoU algebra
-/

theorem iouIntersection_comm (a b : Box) : iouIntersection a b = iouIntersection b a := by
  unfold iouIntersection
  rw [min_comm (a.x + a.w), max_comm a.x, min_comm (a.y + a.h), max_comm a.y]

theorem iouUnion_comm (a b : Box) : iouUnion a b = iouUnion b a := by
  unfold iouUnion
  rw [iouIntersection_comm]
  ring

theorem iouIntersection_eq_zero_of_disjoint (a b : Box) (h : boxesDisjoint a b) :
    iouIntersection a b = 0 := by
  unfold iouIntersection
  rcases h with h | h | h | h
  · have hx : max 0 (min (a.x + a.w) (b.x + b.w) - max a.x b.x) = 0 := by omega
    rw [hx, zero_mul]
  · have hx : max 0 (min (a.x + a.w) (b.x + b.w) - max a.x b.x) = 0 := by omega
    rw [hx, zero_mul]
  · have hy : max 0 (min (a.y + a.h) (b.y + b.h) - max a.y b.y) = 0 := by omega
    rw [hy, mul_zero]
  · have hy : max 0 (min (a.y + a.h) (b.y + b.h) - max a.y b.y) = 0 := by omega
    rw [hy, mul_zero]

/-- **C7.** `FusionEngine._compute_iou` is symmetric in its two `(x, y, w, h)`
box arguments; a box of positive area (both extents positive) has IoU `1.0`
with itself; two non-overlapping boxes have IoU `0.0`; and whenever the
computed union area is `0` the result is `0.0` (the division is guarded, so
no division by zero occurs). -/
theorem computeIoU_symm_self_disjoint_unionZero :
    (∀ a b : Box, computeIoU a b = computeIoU b a)
    ∧ (∀ a : Box, 0 < a.w → 0 < a.h → computeIoU a a = 1)
    ∧ (∀ a b : Box, boxesDisjoint a b → computeIoU a b = 0)
    ∧ (∀ a b : Box, iouUnion a b = 0 → computeIoU a b = 0) := by
  refine ⟨?_, ?_, ?_, ?_⟩
  · intro a b
    unfold computeIoU
    rw [iouIntersection_comm, iouUnion_comm]
  · intro a hw hh
    have hinter : iouIntersection a a = a.w * a.h := by
      unfold iouIntersection
      have hx : min (a.x + a.w) (a.x + a.w) - max a.x a.x = a.w := by omega
      have hy : min (a.y + a.h) (a.y + a.h) - max a.y a.y = a.h := by omega
      rw [hx, hy]
      have : max 0 a.w = a.w := by omega
      rw [this]
      have : max 0 a.h = a.h := by omega
      rw [this]
    have huni : iouUnion a a = a.w * a.h := by
      unfold iouUnion
      rw [hinter]
      ring
    have hpos : 0 < a.w * a.h := mul_pos hw hh
    unfold computeIoU
    rw [hinter, huni, if_pos hpos]
    rw [div_self]
    exact_mod_cast hpos.ne.symm
  · intro a b h
    have hz := iouIntersection_eq_zero_of_disjoint a b h
    unfold computeIoU
    rw [hz]
    split
    · simp
    · rfl
  · intro a b h
    unfold computeIoU
    rw [h]
    norm_num

/-- Witness for C7 at concrete boxes: the unit-offset boxes are disjoint, a
10×10 box has self-IoU 1, and the degenerate zero box has union 0. -/
theorem computeIoU_symm_self_disjoint_unionZero_witness :
    computeIoU { x := 0, y := 0, w := 10, h := 10 } { x := 0, y := 0, w := 10, h := 10 } = 1
    ∧ computeIoU { x := 0, y := 0, w := 2, h := 2 } { x := 5, y := 0, w := 2, h := 2 } = 0
    ∧ computeIoU { x := 3, y := 4, w := 0, h := 0 } { x := 7, y := 9, w := 0, h := 0 } = 0 := by
  refine ⟨?_, ?_, ?_⟩
  · exact computeIoU_symm_self_disjoint_unionZero.2.1 _ (by norm_num) (by norm_num)
  · exact computeIoU_symm_self_disjoint_unionZero.2.2.1 _ _ (Or.inl (by norm_num))
  · exact computeIoU_symm_self_disjoint_unionZero.2.2.2 _ _ (by
      norm_num [iouUnion, iouIntersection])

/-!
## Claim C6 — fuse output bound, consumption, empty-optical degradation
-/

theorem fusePass1_length (e : FusionEngine) (rgb : List RgbDet) (t : List ThermalDet) :
    ∀ used : List ℕ, (fusePass1 e rgb t used).1.length = t.length := by
  induction t with
  | nil => intro used; rfl
  | cons td rest ih =>
    intro used
    simp only [fusePass1]
    split
    · simpa using ih _
    · simpa using ih used

theorem fusePass1_validation (e : FusionEngine) (rgb : List RgbDet) (t : List ThermalDet) :
    ∀ used : List ℕ, ∀ d ∈ (fusePass1 e rgb t used).1,
      d.validation_type = "FUSED_VALIDATED" ∨ d.validation_type = "THERMAL_ONLY" := by
  induction t with
  | nil => intro used d hd; simp [fusePass1] at hd
  | cons td rest ih =>
    intro used d hd
    simp only [fusePass1] at hd
    split at hd
    · simp only [List.mem_cons] at hd
      rcases hd with h | h
      · left; rw [h]; rfl
      · exact ih _ d h
    · simp only [List.mem_cons] at hd
      rcases hd with h | h
      · right; rw [h]; rfl
      · exact ih used d h

theorem fusePass2_eq_filter (rgb : List RgbDet) (used : List ℕ) :
    fusePass2 rgb used
      = (rgb.enum.filter (fun jd => decide (jd.1 ∉ used))).map (fun jd => rgbOnlyEntry jd.2) := by
  unfold fusePass2
  induction rgb.enum with
  | nil => rfl
  | cons a as ih =>
    by_cases h : a.1 ∈ used <;> simp [h, ih]

theorem bestMatch_rgb_nil (projected : Box) (used : List ℕ) :
    bestMatch projected [] used = (0, -1) := rfl

theorem fuse_rgb_nil (e : FusionEngine) (t : List ThermalDet) :
    fuse e t [] = t.map (fun td => thermalOnlyEntry td (projectThermalToRgb e td.bbox)) := by
  unfold fuse
  have h : ∀ used : List ℕ,
      fusePass1 e [] t used
        = (t.map (fun td => thermalOnlyEntry td (projectThermalToRgb e td.bbox)), used) := by
    induction t with
    | nil => intro used; rfl
    | cons td rest ih =>
      intro used
      simp only [fusePass1, bestMatch_rgb_nil]
      rw [if_neg (by norm_num)]
      rw [ih]
      rfl
  rw [h []]
  simp [fusePass2]

/-- **C6.** For all inputs, `FusionEngine.fuse` returns at most
`len(thermal) + len(optical)` entries; its `RGB_ONLY` entries are exactly the
optical detections whose index was never consumed by a `FUSED_VALIDATED`
pairing (so a consumed optical detection never reappears as `RGB_ONLY`); and
with an empty optical list every thermal detection comes back tagged
`THERMAL_ONLY` (the function is total, so no error is raised). -/
theorem fuse_length_consumed_emptyOptical :
    (∀ (e : FusionEngine) (t : List ThermalDet) (r : List RgbDet),
      (fuse e t r).length ≤ t.length + r.length)
    ∧ (∀ (e : FusionEngine) (t : List ThermalDet) (r : List RgbDet),
        (fuse e t r).filter (fun d => d.validation_type == "RGB_ONLY")
          = (r.enum.filter (fun jd => decide (jd.1 ∉ (fusePass1 e r t []).2))).map
              (fun jd => rgbOnlyEntry jd.2))
    ∧ (∀ (e : FusionEngine) (t : List ThermalDet),
        fuse e t [] = t.map (fun td => thermalOnlyEntry td (projectThermalToRgb e td.bbox))
        ∧ ∀ d ∈ fuse e t [], d.validation_type = "THERMAL_ONLY") := by
  refine ⟨?_, ?_, ?_⟩
  · intro e t r
    unfold fuse
    rw [List.length_append]
    have h1 : (fusePass1 e r t []).1.length = t.length := fusePass1_length e r t []
    have h2 : (fusePass2 r (fusePass1 e r t []).2).length ≤ r.length := by
      rw [fusePass2_eq_filter, List.length_map]
      calc (r.enum.filter (fun jd => decide (jd.1 ∉ (fusePass1 e r t []).2))).length
          ≤ r.enum.length := List.length_filter_le _ _
        _ = r.length := List.enum_length
    omega
  · intro e t r
    unfold fuse
    rw [List.filter_append]
    have h1 : (fusePass1 e r t []).1.filter (fun d => d.validation_type == "RGB_ONLY") = [] := by
      rw [List.filter_eq_nil_iff]
      intro d hd
      rcases fusePass1_validation e r t [] d hd with h | h <;> simp [h]
    have h2 : (fusePass2 r (fusePass1 e r t []).2).filter
        (fun d => d.validation_type == "RGB_ONLY") = fusePass2 r (fusePass1 e r t []).2 := by
      rw [List.filter_eq_self]
      intro d hd
      rw [fusePass2_eq_filter] at hd
      rcases List.mem_map.mp hd with ⟨jd, _, hjd⟩
      rw [← hjd]
      rfl
    rw [h1, h2, List.nil_append, fusePass2_eq_filter]
  · intro e t
    constructor
    · exact fuse_rgb_nil e t
    · intro d hd
      rw [fuse_rgb_nil] at hd
      rcases List.mem_map.mp hd with ⟨td, _, htd⟩
      rw [← htd]
      rfl

/-- A concrete fusion engine (the repository default resolutions and IoU
threshold) used by witnesses. -/
def sampleEngine : FusionEngine := mkFusionEngine 80 62 640 480 (3/10)

/-- A concrete thermal detection used by witnesses. -/
def sampleThermal : ThermalDet :=
  { bbox := { x := 10, y := 10, w := 20, h := 20 }, centroid := some (20, 20),
    max_temp := some 32, confidence := 7/10 }

/-- Witness for C6: the empty-optical case at a concrete thermal detection —
one output entry, tagged `THERMAL_ONLY`. -/
theorem fuse_length_consumed_emptyOptical_witness :
    (fuse sampleEngine [sampleThermal] []).length ≤ 1 + 0
    ∧ (thermalOnlyEntry sampleThermal
        (projectThermalToRgb sampleEngine sampleThermal.bbox)).validation_type
        = "THERMAL_ONLY" := by
  constructor
  · simpa using fuse_length_consumed_emptyOptical.1 sampleEngine [sampleThermal] []
  · refine (fuse_length_consumed_emptyOptical.2.2 sampleEngine [sampleThermal]).2 _ ?_
    rw [(fuse_length_consumed_emptyOptical.2.2 sampleEngine [sampleThermal]).1]
    simp

/-!
## Claim C3 — per-entry characterization of fuse
-/

theorem bestStep_fst_le (p : Box) (u : List ℕ) (b : ℚ × ℤ) (jd : ℕ × RgbDet) :
    b.1 ≤ (bestStep p u b jd).1 := by
  simp only [bestStep]
  split
  · exact le_refl _
  · split
    · next h => exact le_of_lt h
    · exact le_refl _

theorem foldl_bestStep_fst_mono (p : Box) (u : List ℕ) :
    ∀ (l : List (ℕ × RgbDet)) (b : ℚ × ℤ), b.1 ≤ (l.foldl (bestStep p u) b).1 := by
  intro l
  induction l with
  | nil => intro b; exact le_refl _
  | cons a as ih =>
    intro b
    exact le_trans (bestStep_fst_le p u b a) (ih (bestStep p u b a))

theorem foldl_bestStep_ub (p : Box) (u : List ℕ) :
    ∀ (l : List (ℕ × RgbDet)) (b : ℚ × ℤ), ∀ jd ∈ l, jd.1 ∉ u →
      computeIoU p jd.2.bbox ≤ (l.foldl (bestStep p u) b).1 := by
  intro l
  induction l with
  | nil =>
    intro b jd h
    simp at h
  | cons a as ih =>
    intro b jd hmem hnu
    rcases List.mem_cons.mp hmem with h | h
    · subst h
      refine le_trans ?_ (foldl_bestStep_fst_mono p u as (bestStep p u b jd))
      simp only [bestStep, if_neg hnu]
      split
      · exact le_refl _
      · next h2 => exact le_of_not_lt h2
    · exact ih (bestStep p u b a) jd h hnu

theorem foldl_bestStep_attained (p : Box) (u : List ℕ) :
    ∀ (l : List (ℕ × RgbDet)) (b : ℚ × ℤ),
      l.foldl (bestStep p u) b = b
      ∨ ∃ jd ∈ l, jd.1 ∉ u
          ∧ l.foldl (bestStep p u) b = (computeIoU p jd.2.bbox, (jd.1 : ℤ)) := by
  intro l
  induction l with
  | nil => intro b; exact Or.inl rfl
  | cons a as ih =>
    intro b
    rw [List.foldl_cons]
    rcases ih (bestStep p u b a) with h | ⟨jd, hjd, hnu, heq⟩
    · by_cases ha : a.1 ∈ u
      · refine Or.inl ?_
        rw [h]
        simp only [bestStep, if_pos ha]
      · by_cases hlt : b.1 < computeIoU p a.2.bbox
        · refine Or.inr ⟨a, List.mem_cons_self a as, ha, ?_⟩
          rw [h]
          simp only [bestStep, if_neg ha]
          rw [if_pos hlt]
        · refine Or.inl ?_
          rw [h]
          simp only [bestStep, if_neg ha]
          rw [if_neg hlt]
    · exact Or.inr ⟨jd, List.mem_cons_of_mem a hjd, hnu, heq⟩

theorem bestMatch_ub (p : Box) (rgb : List RgbDet) (u : List ℕ) :
    ∀ jd ∈ rgb.enum, jd.1 ∉ u → computeIoU p jd.2.bbox ≤ (bestMatch p rgb u).1 :=
  fun jd h hn => foldl_bestStep_ub p u rgb.enum (0, -1) jd h hn

theorem bestMatch_cases (p : Box) (rgb : List RgbDet) (u : List ℕ) :
    bestMatch p rgb u = (0, -1)
    ∨ ∃ jd ∈ rgb.enum, jd.1 ∉ u
        ∧ bestMatch p rgb u = (computeIoU p jd.2.bbox, (jd.1 : ℤ)) :=
  foldl_bestStep_attained p u rgb.enum (0, -1)

theorem bestMatch_idx_nonneg_of_pos (p : Box) (rgb : List RgbDet) (u : List ℕ)
    (h : 0 < (bestMatch p rgb u).1) : 0 ≤ (bestMatch p rgb u).2 := by
  rcases bestMatch_cases p rgb u with hc | ⟨jd, _, _, hc⟩
  · rw [hc] at h
    norm_num at h
  · rw [hc]
    exact Int.ofNat_nonneg jd.1

theorem fusePass1_step_fused (e : FusionEngine) (rgb : List RgbDet) (td : ThermalDet)
    (rest : List ThermalDet) (used : List ℕ) (hθ : 0 < e.iou_threshold)
    (hge : e.iou_threshold ≤ (bestMatch (projectThermalToRgb e td.bbox) rgb used).1) :
    fusePass1 e rgb (td :: rest) used
      = (fusedEntry td
           (rgb.getD (bestMatch (projectThermalToRgb e td.bbox) rgb used).2.toNat junkRgb)
           (projectThermalToRgb e td.bbox)
           (bestMatch (projectThermalToRgb e td.bbox) rgb used).1
         :: (fusePass1 e rgb rest
               ((bestMatch (projectThermalToRgb e td.bbox) rgb used).2.toNat :: used)).1,
         (fusePass1 e rgb rest
            ((bestMatch (projectThermalToRgb e td.bbox) rgb used).2.toNat :: used)).2) := by
  have hnn : 0 ≤ (bestMatch (projectThermalToRgb e td.bbox) rgb used).2 :=
    bestMatch_idx_nonneg_of_pos _ _ _ (lt_of_lt_of_le hθ hge)
  simp only [fusePass1]
  rw [if_pos ⟨hge, hnn⟩]

theorem fusePass1_step_thermalOnly (e : FusionEngine) (rgb : List RgbDet) (td : ThermalDet)
    (rest : List ThermalDet) (used : List ℕ)
    (hlt : (bestMatch (projectThermalToRgb e td.bbox) rgb used).1 < e.iou_threshold) :
    fusePass1 e rgb (td :: rest) used
      = (thermalOnlyEntry td (projectThermalToRgb e td.bbox) :: (fusePass1 e rgb rest used).1,
         (fusePass1 e rgb rest used).2) := by
  simp only [fusePass1]
  rw [if_neg]
  intro hc
  exact absurd hc.1 (not_le_of_lt hlt)

/-- The relation, between an input thermal detection and the output entry it
produces, asserted by the fusion stage: either a `FUSED_VALIDATED` pairing
with an actual optical detection of the input list, or a `THERMAL_ONLY`
fallback, with the documented (3-decimal-rounded) confidence formulas. -/
def fusionEntrySpec (rgb : List RgbDet) (td : ThermalDet) (d : FusedDet) : Prop :=
  (d.validation_type = "FUSED_VALIDATED"
    ∧ ∃ rd ∈ rgb, d.rgb_bbox = some rd.bbox
        ∧ d.confidence = pyRound (td.confidence * (6/10) + rd.confidence * (4/10)) 3)
  ∨ (d.validation_type = "THERMAL_ONLY"
      ∧ d.confidence = pyRound (td.confidence * (7/10)) 3)

theorem fusePass1_entryShape (e : FusionEngine) (rgb : List RgbDet) (t : List ThermalDet) :
    ∀ used : List ℕ, List.Forall₂ (fusionEntrySpec rgb) t (fusePass1 e rgb t used).1 := by
  induction t with
  | nil => intro used; exact List.Forall₂.nil
  | cons td rest ih =>
    intro used
    simp only [fusePass1]
    split
    · next hcond =>
      refine List.Forall₂.cons ?_ (ih _)
      rcases bestMatch_cases (projectThermalToRgb e td.bbox) rgb used with hc | ⟨jd, hjd, _, hc⟩
      · exfalso
        rw [hc] at hcond
        exact absurd hcond.2 (by norm_num)
      · left
        refine ⟨rfl, jd.2, ?_, ?_, ?_⟩
        · exact List.getElem?_mem (List.mem_enum_iff_getElem?.mp hjd)
        · have hjd2 : rgb.getD (bestMatch (projectThermalToRgb e td.bbox) rgb used).2.toNat junkRgb
              = jd.2 := by
            rw [hc]
            rw [List.getD_eq_getElem?_getD, Int.toNat_ofNat, List.mem_enum_iff_getElem?.mp hjd]
            rfl
          simp only [fusedEntry, hjd2]
        · have hjd2 : rgb.getD (bestMatch (projectThermalToRgb e td.bbox) rgb used).2.toNat junkRgb
              = jd.2 := by
            rw [hc]
            rw [List.getD_eq_getElem?_getD, Int.toNat_ofNat, List.mem_enum_iff_getElem?.mp hjd]
            rfl
          simp only [fusedEntry, hjd2]
    · exact List.Forall₂.cons (Or.inr ⟨rfl, rfl⟩) (ih used)

theorem fusePass2_shape (rgb : List RgbDet) (used : List ℕ) :
    ∀ d ∈ fusePass2 rgb used, ∃ rd ∈ rgb,
      d = rgbOnlyEntry rd ∧ d.confidence = pyRound (rd.confidence * (1/2)) 3 := by
  intro d hd
  rw [fusePass2_eq_filter] at hd
  rcases List.mem_map.mp hd with ⟨jd, hjdmem, hjd⟩
  have hjd2 : jd ∈ rgb.enum := List.mem_of_mem_filter hjdmem
  refine ⟨jd.2, List.getElem?_mem (List.mem_enum_iff_getElem?.mp hjd2), hjd.symm, ?_⟩
  rw [← hjd]
  rfl

/-- The spec's concrete fusion scenario: a thermal hotspot with
`confidence = 0.7` (engine at equal resolutions, so the projection is the
identity). -/
def scenThermal : ThermalDet :=
  { bbox := { x := 0, y := 0, w := 10, h := 10 }, centroid := some (5, 5),
    max_temp := some 32, confidence := 7/10 }

/-- The spec's concrete fusion scenario: an optical detection with
`confidence = 0.6` whose box overlaps the thermal box at IoU exactly `0.5`. -/
def scenOptical : RgbDet :=
  { bbox := { x := 0, y := 0, w := 10, h := 5 }, confidence := 6/10 }

/-- Engine for the concrete scenario: equal resolutions, default threshold
`0.3`. -/
def scenEngine : FusionEngine := mkFusionEngine 80 62 80 62 (3/10)

theorem scenario_proj :
    projectThermalToRgb scenEngine scenThermal.bbox = scenThermal.bbox := by
  have hsx : scenEngine.scale_x = 1 := by norm_num [scenEngine, mkFusionEngine]
  have hsy : scenEngine.scale_y = 1 := by norm_num [scenEngine, mkFusionEngine]
  simp only [projectThermalToRgb, scenThermal, hsx, hsy, Box.mk.injEq]
  norm_num [pyTrunc]

theorem scenario_iou : computeIoU scenThermal.bbox scenOptical.bbox = 1/2 := by
  norm_num [computeIoU, iouUnion, iouIntersection, scenThermal, scenOptical]

theorem scenario_bestMatch :
    bestMatch (projectThermalToRgb scenEngine scenThermal.bbox) [scenOptical] [] = (1/2, 0) := by
  rw [scenario_proj]
  simp only [bestMatch, List.enum, List.enumFrom, List.foldl_cons, List.foldl_nil, bestStep]
  rw [if_neg (List.not_mem_nil 0)]
  simp only [scenario_iou]
  norm_num

theorem scenario_fusePass1 :
    fusePass1 scenEngine [scenOptical] [scenThermal] []
      = ([fusedEntry scenThermal scenOptical scenThermal.bbox (1/2)], [0]) := by
  simp only [fusePass1, scenario_bestMatch]
  rw [if_pos (by constructor <;> norm_num [scenEngine, mkFusionEngine])]
  rw [scenario_proj]
  simp [fusePass1]

theorem scenario_fuse_eq :
    fuse scenEngine [scenThermal] [scenOptical]
      = [fusedEntry scenThermal scenOptical scenThermal.bbox (1/2)] := by
  unfold fuse
  rw [scenario_fusePass1]
  simp [fusePass2]

/-- **C3 counterexample.** As literally stated the claim fails: the code
stores `round(0.7 * thermal_conf, 3)`, not `0.7 * thermal_conf`. With a lone
thermal detection of confidence `1/3` the emitted `THERMAL_ONLY` confidence
is `0.233`, while `0.7 * (1/3) = 7/30 ≠ 0.233`. -/
theorem fuse_confidence_exact_counterexample :
    (fuse scenEngine
        [{ bbox := { x := 0, y := 0, w := 10, h := 10 }, centroid := none,
           max_temp := none, confidence := 1/3 }] []).map (fun d => d.confidence)
      = [233/1000]
    ∧ (233 : ℚ)/1000 ≠ (7/10) * (1/3) := by
  constructor
  · rw [fuse_rgb_nil]
    simp only [List.map_cons, List.map_nil, thermalOnlyEntry]
    norm_num [pyRound, halfEvenRound]
  · norm_num

/-- **C3 (amended).** In every call to `FusionEngine.fuse`: the inner loop
really computes the best IoU over the not-yet-consumed optical detections
(upper bound + attainment); at every loop state, a thermal detection whose
best IoU reaches `iou_threshold` (taken positive, as the default `0.3` is)
produces exactly the `FUSED_VALIDATED` entry pairing it with that optical
detection, and otherwise exactly the `THERMAL_ONLY` entry; each thermal
detection produces exactly one entry, whose confidence is
`round(0.6·thermal + 0.4·optical, 3)` in the fused case and
`round(0.7·thermal, 3)` otherwise; each never-consumed optical detection
produces one `RGB_ONLY` entry with confidence `round(0.5·optical, 3)`; and
the concrete scenario — thermal confidence `0.7` fused with optical
confidence `0.6` at IoU `0.5` — yields a `FUSED_VALIDATED` entry with
confidence `0.66`. -/
theorem fuse_entry_characterization :
    (∀ (p : Box) (rgb : List RgbDet) (used : List ℕ),
        (∀ jd ∈ rgb.enum, jd.1 ∉ used → computeIoU p jd.2.bbox ≤ (bestMatch p rgb used).1)
        ∧ (bestMatch p rgb used = (0, -1)
            ∨ ∃ jd ∈ rgb.enum, jd.1 ∉ used
                ∧ bestMatch p rgb used = (computeIoU p jd.2.bbox, (jd.1 : ℤ))))
    ∧ (∀ (e : FusionEngine) (rgb : List RgbDet) (td : ThermalDet) (rest : List ThermalDet)
          (used : List ℕ),
        (0 < e.iou_threshold →
          e.iou_threshold ≤ (bestMatch (projectThermalToRgb e td.bbox) rgb used).1 →
          fusePass1 e rgb (td :: rest) used
            = (fusedEntry td
                 (rgb.getD (bestMatch (projectThermalToRgb e td.bbox) rgb used).2.toNat junkRgb)
                 (projectThermalToRgb e td.bbox)
                 (bestMatch (projectThermalToRgb e td.bbox) rgb used).1
               :: (fusePass1 e rgb rest
                     ((bestMatch (projectThermalToRgb e td.bbox) rgb used).2.toNat :: used)).1,
               (fusePass1 e rgb rest
                  ((bestMatch (projectThermalToRgb e td.bbox) rgb used).2.toNat :: used)).2))
        ∧ ((bestMatch (projectThermalToRgb e td.bbox) rgb used).1 < e.iou_threshold →
          fusePass1 e rgb (td :: rest) used
            = (thermalOnlyEntry td (projectThermalToRgb e td.bbox)
                 :: (fusePass1 e rgb rest used).1,
               (fusePass1 e rgb rest used).2)))
    ∧ (∀ (e : FusionEngine) (rgb : List RgbDet) (t : List ThermalDet) (used : List ℕ),
        List.Forall₂ (fusionEntrySpec rgb) t (fusePass1 e rgb t used).1)
    ∧ (∀ (rgb : List RgbDet) (used : List ℕ), ∀ d ∈ fusePass2 rgb used,
        ∃ rd ∈ rgb, d = rgbOnlyEntry rd ∧ d.confidence = pyRound (rd.confidence * (1/2)) 3)
    ∧ (fuse scenEngine [scenThermal] [scenOptical]).map
        (fun d => (d.validation_type, d.confidence, d.iou))
        = [("FUSED_VALIDATED", 66/100, some (1/2))] := by
  refine ⟨fun p rgb used => ⟨bestMatch_ub p rgb used, bestMatch_cases p rgb used⟩,
    fun e rgb td rest used =>
      ⟨fun hθ hge => fusePass1_step_fused e rgb td rest used hθ hge,
       fun hlt => fusePass1_step_thermalOnly e rgb td rest used hlt⟩,
    fun e rgb t used => fusePass1_entryShape e rgb t used,
    fun rgb used => fusePass2_shape rgb used, ?_⟩
  rw [scenario_fuse_eq]
  simp only [List.map_cons, List.map_nil, fusedEntry, scenThermal, scenOptical]
  norm_num [pyRound, halfEvenRound]

/-- Witness for C3 at the concrete scenario: the fused step of the theorem,
applied with threshold `0.3 ≤ best IoU 0.5`, gives the single
`FUSED_VALIDATED` entry. -/
theorem fuse_entry_characterization_witness :
    fusePass1 scenEngine [scenOptical] [scenThermal] []
      = ([fusedEntry scenThermal scenOptical scenThermal.bbox (1/2)], [0]) := by
  have h := (fuse_entry_characterization.2.1 scenEngine [scenOptical] scenThermal [] []).1
    (by norm_num [scenEngine, mkFusionEngine])
    (by rw [scenario_bestMatch]; norm_num [scenEngine, mkFusionEngine])
  rw [h, scenario_bestMatch, scenario_proj]
  simp [fusePass1]

/-!
## ThermalDetector — `src/backend/thermal_detector.py`

The `cv2` stages (Gaussian blur, binary threshold's contour extraction,
morphology, convex hull) are external library calls; the embedding covers the
pure arithmetic around them: the adaptive-threshold computation, the binary
mask rule, and the per-contour filter / confidence / sort stage, fed by the
numeric quantities (`contourArea`, hull area, bounding rectangle, region
max / standard deviation) that the source reads off those calls.  Standard
deviations are `sqrt`s of rational variances, so they enter the model as a
value `σ` constrained by `0 ≤ σ ∧ σ^2 = variance` where the variance is
computed exactly.
-/

/-- `HUMAN_TEMP_MIN_C = 28.0`. -/
def HUMAN_TEMP_MIN_C : ℚ := 28

/-- `SCENE_TEMP_RANGE = (15.0, 45.0)`, lower bound. -/
def SCENE_TEMP_LO : ℚ := 15

/-- `SCENE_TEMP_RANGE = (15.0, 45.0)`, upper bound. -/
def SCENE_TEMP_HI : ℚ := 45

/-- `intensity_to_temp`: linear `[0,255] → [15,45]` mapping. -/
def intensityToTemp (v : ℚ) : ℚ :=
  SCENE_TEMP_LO + (v / 255) * (SCENE_TEMP_HI - SCENE_TEMP_LO)

/-- `temp_to_intensity`: inverse linear mapping, clipped to `[0,255]` and
truncated with `int(...)`. -/
def tempToIntensity (t : ℚ) : ℤ :=
  pyTrunc (min (max ((t - SCENE_TEMP_LO) / (SCENE_TEMP_HI - SCENE_TEMP_LO) * 255) 0) 255)

/-- `HUMAN_INTENSITY_FLOOR = temp_to_intensity(HUMAN_TEMP_MIN_C)`. -/
def HUMAN_INTENSITY_FLOOR : ℤ := tempToIntensity HUMAN_TEMP_MIN_C

theorem human_intensity_floor_eq : HUMAN_INTENSITY_FLOOR = 110 := by
  norm_num [HUMAN_INTENSITY_FLOOR, tempToIntensity, pyTrunc, HUMAN_TEMP_MIN_C,
    SCENE_TEMP_LO, SCENE_TEMP_HI]

/-- The `ThermalDetector.__init__` numeric parameters that the pure stage
reads. -/
structure ThermalConfig where
  min_area : ℚ
  max_area : ℚ
  std_multiplier : ℚ
  min_temp_variance : ℚ
  min_solidity : ℚ

/-- The constructor defaults of `ThermalDetector`. -/
def defaultThermalConfig : ThermalConfig :=
  { min_area := 40, max_area := 5000, std_multiplier := 3,
    min_temp_variance := 5, min_solidity := 3/10 }

/-- The adaptive threshold `t = mean + k·σ` clamped (in source order) below
by `HUMAN_INTENSITY_FLOOR` and above by `245.0`. -/
def adaptiveThreshold (cfg : ThermalConfig) (meanVal stdVal : ℚ) : ℚ :=
  min (max (meanVal + cfg.std_multiplier * stdVal) (HUMAN_INTENSITY_FLOOR : ℚ)) 245

/-- One pixel of `cv2.threshold(blurred, int(thresh), 255, THRESH_BINARY)`:
`255` where the pixel strictly exceeds the (truncated) threshold, else `0`. -/
def thresholdPixel (t : ℤ) (v : ℕ) : ℕ :=
  if (v : ℤ) > t then 255 else 0

/-- The full binary mask of the threshold stage. -/
def thresholdMask (f : List (List ℕ)) (t : ℤ) : List (List ℕ) :=
  f.map (fun row => row.map (thresholdPixel t))

/-- A frame every pixel of which equals `v`. -/
def uniformFrame (rows cols v : ℕ) : List (List ℕ) :=
  List.replicate rows (List.replicate cols v)

/-- The rectangular slice `frame[y:y+h, x:x+w]` (numpy slicing clips at the
edges, as `drop`/`take` do). -/
def frameRegion (f : List (List ℕ)) (x y w h : ℕ) : List (List ℕ) :=
  ((f.drop y).take h).map (fun r => (r.drop x).take w)

/-- Number of pixels of a frame. -/
def frameCount (f : List (List ℕ)) : ℕ :=
  (f.map List.length).sum

/-- Sum of the pixels of a frame. -/
def frameSum (f : List (List ℕ)) : ℕ :=
  (f.map List.sum).sum

/-- Sum of the squared pixels of a frame. -/
def frameSqSum (f : List (List ℕ)) : ℕ :=
  (f.map (fun r => (r.map (fun v => v * v)).sum)).sum

/-- `np.mean` of a frame, exactly. -/
def frameMean (f : List (List ℕ)) : ℚ :=
  (frameSum f : ℚ) / (frameCount f : ℚ)

/-- The population variance `np.std(f)^2 = mean(f²) − mean(f)²`, exactly. -/
def frameVariance (f : List (List ℕ)) : ℚ :=
  (frameSqSum f : ℚ) / (frameCount f : ℚ) - frameMean f ^ 2

/-- The numeric quantities the per-contour loop of `ThermalDetector.detect`
reads from `cv2`/`numpy` for one contour: `cv2.contourArea(cnt)`, the hull
area, the hull's bounding rectangle, the clipped ROI's element count, and
the ROI's max and standard deviation over the raw gray frame. -/
structure ContourInfo where
  area : ℚ
  hull_area : ℚ
  rect : Box
  roi_size : ℕ
  max_val : ℚ
  roi_std : ℚ

/-- One detection dict of `ThermalDetector.detect`. -/
structure ThermalHotspot where
  bbox : Box
  centroid : ℤ × ℤ
  max_temp : ℚ
  area : ℚ
  confidence : ℚ
  deriving DecidableEq

/-- `solidity = area / hull_area if hull_area > 0 else 0` for one contour. -/
def contourSolidity (c : ContourInfo) : ℚ :=
  if c.hull_area > 0 then c.area / c.hull_area else 0

/-- `ar = w / h if h > 0 else 0` for one contour's refined bounding box. -/
def contourAspect (c : ContourInfo) : ℚ :=
  if c.rect.h > 0 then (c.rect.w : ℚ) / (c.rect.h : ℚ) else 0

/-- The weighted confidence sum of `ThermalDetector.detect` before the final
clip: `norm_temp·0.4 + norm_area·0.25 + solidity·0.2 + norm_var·0.15`. -/
def contourRawConfidence (c : ContourInfo) : ℚ :=
  min 1 ((intensityToTemp c.max_val - HUMAN_TEMP_MIN_C) / 10) * (4/10)
    + min 1 (c.area / 300) * (25/100)
    + contourSolidity c * (2/10)
    + min 1 (c.roi_std / 30) * (15/100)

/-- The body of the per-contour loop of `ThermalDetector.detect`
(lines 143–208): area gate, solidity gate, aspect-ratio gate, empty-ROI
gate, temperature-variance gate, human-floor gate, then the weighted
confidence clipped to `[0.05, 0.99]` and the output dict. -/
def contourToDet (cfg : ThermalConfig) (c : ContourInfo) : Option ThermalHotspot :=
  if c.area < cfg.min_area ∨ c.area > cfg.max_area then none
  else if contourSolidity c < cfg.min_solidity then none
  else if contourAspect c > 4 ∨ contourAspect c < 1/4 then none
  else if c.roi_size = 0 then none
  else if c.roi_std < cfg.min_temp_variance then none
  else if intensityToTemp c.max_val < HUMAN_TEMP_MIN_C then none
  else
    some { bbox := c.rect
           centroid := (pyTrunc ((c.rect.x : ℚ) + (c.rect.w : ℚ) / 2),
                        pyTrunc ((c.rect.y : ℚ) + (c.rect.h : ℚ) / 2))
           max_temp := pyRound (intensityToTemp c.max_val) 1
           area := c.area
           confidence := pyRound (min (max (contourRawConfidence c) (5/100)) (99/100)) 3 }

/-- The contour stage of `ThermalDetector.detect`: keep the contours that
pass every gate, then `sort(key=confidence, reverse=True)` (stable,
descending). -/
def processContours (cfg : ThermalConfig) (cs : List ContourInfo) : List ThermalHotspot :=
  (cs.filterMap (contourToDet cfg)).mergeSort (fun a b => decide (b.confidence ≤ a.confidence))

/-!
## Claim C5 — thermal confidence formula and descending sort
-/

theorem processContours_sorted_desc (cfg : ThermalConfig) (cs : List ContourInfo) :
    (processContours cfg cs).Sorted (fun a b => b.confidence ≤ a.confidence) := by
  unfold processContours
  refine List.Pairwise.imp ?_
    (List.sorted_mergeSort ?_ ?_ (cs.filterMap (contourToDet cfg)))
  · intro a b hab
    exact of_decide_eq_true hab
  · intro a b c hab hbc
    rw [decide_eq_true_eq] at hab hbc ⊢
    exact le_trans hbc hab
  · intro a b
    rcases le_total b.confidence a.confidence with h | h
    · rw [Bool.or_eq_true, decide_eq_true_eq]
      exact Or.inl h
    · rw [Bool.or_eq_true, decide_eq_true_eq, decide_eq_true_eq]
      exact Or.inr h

theorem processContours_mem (cfg : ThermalConfig) (cs : List ContourInfo)
    (d : ThermalHotspot) (hd : d ∈ processContours cfg cs) :
    ∃ c ∈ cs, contourToDet cfg c = some d := by
  unfold processContours at hd
  rw [(List.mergeSort_perm _ _).mem_iff] at hd
  exact List.mem_filterMap.mp hd


theorem contourToDet_some_shape (cfg : ThermalConfig) (c : ContourInfo) (d : ThermalHotspot)
    (h : contourToDet cfg c = some d) :
    ¬(c.area < cfg.min_area ∨ c.area > cfg.max_area)
    ∧ ¬(contourSolidity c < cfg.min_solidity)
    ∧ ¬(c.roi_std < cfg.min_temp_variance)
    ∧ ¬(intensityToTemp c.max_val < HUMAN_TEMP_MIN_C)
    ∧ d.confidence = pyRound (min (max (contourRawConfidence c) (5/100)) (99/100)) 3 := by
  simp only [contourToDet] at h
  split at h
  · exact absurd h (by simp)
  · next h1 =>
    split at h
    · exact absurd h (by simp)
    · next h2 =>
      split at h
      · exact absurd h (by simp)
      · split at h
        · exact absurd h (by simp)
        · split at h
          · exact absurd h (by simp)
          · next h5 =>
            split at h
            · exact absurd h (by simp)
            · next h6 =>
              rw [Option.some.injEq] at h
              refine ⟨h1, h2, h5, h6, ?_⟩
              rw [← h]

theorem contourSolidity_bounds (c : ContourInfo) (h0 : 0 ≤ c.area) (h1 : c.area ≤ c.hull_area) :
    0 ≤ contourSolidity c ∧ contourSolidity c ≤ 1 := by
  unfold contourSolidity
  split
  · next hp => exact ⟨div_nonneg h0 (le_of_lt hp), (div_le_one hp).mpr h1⟩
  · norm_num

/-- **C5 (amended).** Every hotspot returned by the contour stage of
`ThermalDetector.detect` has confidence equal to the weighted sum
`0.4·min(1,(max_temp−28)/10) + 0.25·min(1,area/300) + 0.20·solidity +
0.15·min(1,roi_std/30)` — each term lying in `[0,1]` before weighting (the
`cv2` facts `0 ≤ area ≤ hull_area` and `0 ≤ roi_std` are hypotheses) —
clamped to `[0.05, 0.99]` *and then rounded to 3 decimal places*; and the
returned list is sorted by confidence in descending order. -/
theorem thermal_confidence_formula_and_sorted :
    (∀ (cfg : ThermalConfig) (cs : List ContourInfo),
        (∀ c ∈ cs, 0 ≤ c.area ∧ c.area ≤ c.hull_area ∧ 0 ≤ c.roi_std) →
        ∀ d ∈ processContours cfg cs,
          ∃ c ∈ cs,
            (0 ≤ min 1 ((intensityToTemp c.max_val - HUMAN_TEMP_MIN_C) / 10)
              ∧ min 1 ((intensityToTemp c.max_val - HUMAN_TEMP_MIN_C) / 10) ≤ 1)
            ∧ (0 ≤ min 1 (c.area / 300) ∧ min 1 (c.area / 300) ≤ 1)
            ∧ (0 ≤ contourSolidity c ∧ contourSolidity c ≤ 1)
            ∧ (0 ≤ min 1 (c.roi_std / 30) ∧ min 1 (c.roi_std / 30) ≤ 1)
            ∧ d.confidence = pyRound (min (max (contourRawConfidence c) (5/100)) (99/100)) 3)
    ∧ (∀ (cfg : ThermalConfig) (cs : List ContourInfo),
        (processContours cfg cs).Sorted (fun a b => b.confidence ≤ a.confidence)) := by
  refine ⟨?_, fun cfg cs => processContours_sorted_desc cfg cs⟩
  intro cfg cs hcs d hd
  rcases processContours_mem cfg cs d hd with ⟨c, hc, hdet⟩
  rcases contourToDet_some_shape cfg c d hdet with ⟨_, _, _, h6, hconf⟩
  rcases hcs c hc with ⟨ha0, hah, hs0⟩
  push_neg at h6
  refine ⟨c, hc, ⟨?_, min_le_left _ _⟩, ⟨?_, min_le_left _ _⟩,
    contourSolidity_bounds c ha0 hah, ⟨?_, min_le_left _ _⟩, hconf⟩
  · refine le_min (by norm_num) (div_nonneg ?_ (by norm_num))
    linarith
  · exact le_min (by norm_num) (div_nonneg ha0 (by norm_num))
  · exact le_min (by norm_num) (div_nonneg hs0 (by norm_num))

/-- A concrete contour: area `240`, hull area `700` (solidity `12/35`),
bounding square `20×20`, hottest pixel `255`, ROI standard deviation `30`. -/
def cexContour : ContourInfo :=
  { area := 240, hull_area := 700, rect := { x := 0, y := 0, w := 20, h := 20 },
    roi_size := 400, max_val := 255, roi_std := 30 }

/-- The detection `cexContour` produces under the default configuration. -/
def cexHotspot : ThermalHotspot :=
  { bbox := { x := 0, y := 0, w := 20, h := 20 }, centroid := (10, 10),
    max_temp := 45, area := 240, confidence := 819/1000 }

theorem cexContour_det :
    contourToDet defaultThermalConfig cexContour = some cexHotspot := by
  simp only [contourToDet]
  rw [if_neg (by norm_num [cexContour, defaultThermalConfig])]
  rw [if_neg (by norm_num [contourSolidity, cexContour, defaultThermalConfig])]
  rw [if_neg (by norm_num [contourAspect, cexContour])]
  rw [if_neg (by norm_num [cexContour])]
  rw [if_neg (by norm_num [cexContour, defaultThermalConfig])]
  rw [if_neg (by norm_num [intensityToTemp, cexContour, SCENE_TEMP_LO, SCENE_TEMP_HI,
    HUMAN_TEMP_MIN_C])]
  rw [Option.some.injEq]
  simp only [cexContour, cexHotspot, ThermalHotspot.mk.injEq]
  refine ⟨trivial, ?_, ?_, trivial, ?_⟩
  · rw [Prod.mk.injEq]
    constructor <;> norm_num [pyTrunc]
  · norm_num [pyRound, halfEvenRound, intensityToTemp, SCENE_TEMP_LO, SCENE_TEMP_HI]
  · norm_num [pyRound, halfEvenRound, contourRawConfidence, contourSolidity, intensityToTemp,
      SCENE_TEMP_LO, SCENE_TEMP_HI, HUMAN_TEMP_MIN_C]

theorem cexContour_process :
    processContours defaultThermalConfig [cexContour] = [cexHotspot] := by
  unfold processContours
  simp [cexContour_det, List.mergeSort]

/-- **C5 counterexample.** As literally stated the claim fails: the stored
confidence is the clamped weighted sum *rounded to 3 decimals*.  For
`cexContour` the clamped weighted sum is `573/700 = 0.81857…`, while the
returned hotspot carries `0.819 ≠ 573/700`. -/
theorem thermal_confidence_exact_counterexample :
    (processContours defaultThermalConfig [cexContour]).map (fun d => d.confidence)
      = [819/1000]
    ∧ min (max (contourRawConfidence cexContour) (5/100)) (99/100) = 573/700
    ∧ (819 : ℚ)/1000 ≠ 573/700 := by
  refine ⟨?_, ?_, by norm_num⟩
  · rw [cexContour_process]
    simp [cexHotspot]
  · norm_num [contourRawConfidence, contourSolidity, cexContour, intensityToTemp,
      SCENE_TEMP_LO, SCENE_TEMP_HI, HUMAN_TEMP_MIN_C]

/-- Witness for C5, instantiating the amended theorem at `cexContour` and
its produced hotspot. -/
theorem thermal_confidence_formula_and_sorted_witness :
    ∃ c ∈ [cexContour],
      (0 ≤ min 1 ((intensityToTemp c.max_val - HUMAN_TEMP_MIN_C) / 10)
        ∧ min 1 ((intensityToTemp c.max_val - HUMAN_TEMP_MIN_C) / 10) ≤ 1)
      ∧ (0 ≤ min 1 (c.area / 300) ∧ min 1 (c.area / 300) ≤ 1)
      ∧ (0 ≤ contourSolidity c ∧ contourSolidity c ≤ 1)
      ∧ (0 ≤ min 1 (c.roi_std / 30) ∧ min 1 (c.roi_std / 30) ≤ 1)
      ∧ cexHotspot.confidence
          = pyRound (min (max (contourRawConfidence c) (5/100)) (99/100)) 3 := by
  refine thermal_confidence_formula_and_sorted.1 defaultThermalConfig [cexContour] ?_
    cexHotspot ?_
  · intro c hc
    rw [List.mem_singleton] at hc
    subst hc
    norm_num [cexContour]
  · rw [cexContour_process]
    simp

/-!
## Claim C8 — uniform frames produce no detections
-/

theorem pyTrunc_intCast (z : ℤ) : pyTrunc (z : ℚ) = z := by
  unfold pyTrunc
  split
  · rw [← Int.cast_neg, Int.floor_intCast]
    omega
  · rw [Int.floor_intCast]

theorem frameMean_uniform (a b v : ℕ) (ha : 0 < a) (hb : 0 < b) :
    frameMean (uniformFrame a b v) = v := by
  simp only [frameMean, frameSum, frameCount, uniformFrame, List.map_replicate,
    List.sum_replicate, List.length_replicate, smul_eq_mul]
  push_cast
  have ha0 : (a : ℚ) ≠ 0 := Nat.cast_ne_zero.mpr ha.ne.symm
  have hb0 : (b : ℚ) ≠ 0 := Nat.cast_ne_zero.mpr hb.ne.symm
  field_simp
  ring

theorem frameVariance_uniform (a b v : ℕ) :
    frameVariance (uniformFrame a b v) = 0 := by
  simp only [frameVariance, frameSqSum, frameSum, frameCount, frameMean, uniformFrame,
    List.map_replicate, List.sum_replicate, List.length_replicate, smul_eq_mul]
  push_cast
  by_cases h : ((a : ℚ) * b) = 0
  · have h1 : (a : ℚ) * ((b : ℚ) * ((v : ℚ) * v)) = 0 := by
      rw [← mul_assoc, h, zero_mul]
    have h2 : (a : ℚ) * ((b : ℚ) * (v : ℚ)) = 0 := by
      rw [← mul_assoc, h, zero_mul]
    rw [h1, h2, h]
    norm_num
  · field_simp
    ring

theorem frameRegion_uniform (rows cols v x y w h : ℕ) :
    frameRegion (uniformFrame rows cols v) x y w h
      = uniformFrame (min h (rows - y)) (min w (cols - x)) v := by
  unfold frameRegion uniformFrame
  rw [List.drop_replicate, List.take_replicate, List.map_replicate, List.drop_replicate,
    List.take_replicate]

/-- **C8.** `ThermalDetector.detect` on a fully-uniform (in particular
all-black) frame, every pixel equal to `v`: the frame statistics are mean
`v` and variance `0` (so the standard deviation is forced to `0`); with
`σ = 0` the adaptive threshold is the mean clamped into
`[HUMAN_INTENSITY_FLOOR, 245] = [110, 245]`; for `v ≤ 245` the binary mask
is identically zero, so contour extraction has nothing to find; every
rectangular ROI of the uniform frame is itself uniform with variance `0`;
and any contour whose ROI standard deviation is `0` is rejected by the
`min_temp_variance` gate (positive by default), so the detection list is
empty.  Every embedded stage is a total function — no exception is raised. -/
theorem thermal_uniform_frame_empty :
    (∀ rows cols v : ℕ, 0 < rows → 0 < cols →
        frameMean (uniformFrame rows cols v) = v
        ∧ frameVariance (uniformFrame rows cols v) = 0)
    ∧ (∀ (cfg : ThermalConfig) (m : ℚ),
        adaptiveThreshold cfg m 0 = min (max m 110) 245)
    ∧ (∀ (cfg : ThermalConfig) (rows cols v : ℕ) (σ : ℚ),
        0 ≤ σ → σ ^ 2 = frameVariance (uniformFrame rows cols v) →
        0 < rows → 0 < cols → v ≤ 245 →
        thresholdMask (uniformFrame rows cols v)
            (pyTrunc (adaptiveThreshold cfg (frameMean (uniformFrame rows cols v)) σ))
          = uniformFrame rows cols 0)
    ∧ (∀ (rows cols v x y w h : ℕ) (σr : ℚ),
        σr ^ 2 = frameVariance (frameRegion (uniformFrame rows cols v) x y w h) → σr = 0)
    ∧ (∀ (cfg : ThermalConfig) (cs : List ContourInfo),
        0 < cfg.min_temp_variance → (∀ c ∈ cs, c.roi_std = 0) →
        processContours cfg cs = []) := by
  refine ⟨fun rows cols v hr hc => ⟨frameMean_uniform rows cols v hr hc,
      frameVariance_uniform rows cols v⟩, ?_, ?_, ?_, ?_⟩
  · intro cfg m
    unfold adaptiveThreshold
    rw [human_intensity_floor_eq, mul_zero, add_zero]
    norm_num
  · intro cfg rows cols v σ hσ0 hσv hr hc hv
    have hvar : frameVariance (uniformFrame rows cols v) = 0 :=
      frameVariance_uniform rows cols v
    have hσ : σ = 0 := by
      have h2 : σ ^ 2 = 0 := hσv.trans hvar
      exact pow_eq_zero_iff (two_ne_zero) |>.mp h2
    subst hσ
    rw [frameMean_uniform rows cols v hr hc]
    have hthr : adaptiveThreshold cfg (v : ℚ) 0 = ((min (max (v : ℤ) 110) 245 : ℤ) : ℚ) := by
      unfold adaptiveThreshold
      rw [human_intensity_floor_eq, mul_zero, add_zero]
      push_cast
      rfl
    rw [hthr, pyTrunc_intCast]
    unfold thresholdMask uniformFrame
    rw [List.map_replicate, List.map_replicate]
    have hpix : thresholdPixel (min (max (v : ℤ) 110) 245) v = 0 := by
      unfold thresholdPixel
      rw [if_neg]
      omega
    rw [hpix]
  · intro rows cols v x y w h σr hσv
    have hvar : frameVariance (frameRegion (uniformFrame rows cols v) x y w h) = 0 := by
      rw [frameRegion_uniform]
      exact frameVariance_uniform _ _ v
    exact pow_eq_zero_iff (two_ne_zero) |>.mp (hσv.trans hvar)
  · intro cfg cs hmtv hcs
    unfold processContours
    have hnil : cs.filterMap (contourToDet cfg) = [] := by
      rw [List.filterMap_eq_nil_iff]
      intro c hc
      simp only [contourToDet]
      split_ifs with g1 g2 g3 g4 g5 g6
      · rfl
      · rfl
      · rfl
      · rfl
      · rfl
      · rfl
      · exact absurd (by rw [hcs c hc]; exact hmtv) g5
    rw [hnil]
    simp [List.mergeSort]

/-- Witness for C8: the 2×3 all-black frame has an all-zero mask, and a
contour with ROI standard deviation `0` over such a frame yields no
detections under the default configuration. -/
theorem thermal_uniform_frame_empty_witness :
    thresholdMask (uniformFrame 2 3 0)
        (pyTrunc (adaptiveThreshold defaultThermalConfig (frameMean (uniformFrame 2 3 0)) 0))
      = uniformFrame 2 3 0
    ∧ processContours defaultThermalConfig
        [{ area := 240, hull_area := 700, rect := { x := 0, y := 0, w := 20, h := 20 },
           roi_size := 400, max_val := 255, roi_std := 0 }] = [] := by
  constructor
  · have h := thermal_uniform_frame_empty.2.2.1 defaultThermalConfig 2 3 0 0 (le_refl 0)
      (by rw [frameVariance_uniform]; norm_num) (by norm_num) (by norm_num) (by norm_num)
    simpa using h
  · exact thermal_uniform_frame_empty.2.2.2.2 defaultThermalConfig _
      (by norm_num [defaultThermalConfig]) (by intro c hc; rw [List.mem_singleton] at hc; rw [hc])

/-!
## Tracker — `src/backend/tracker.py`

`time.time()` is passed in explicitly as `now`.  Euclidean distances are
handled through their squares (`distSq`, `distExceeds`), which is exact.
`numpy`'s `argsort` of the per-row minima is modelled as a stable
`mergeSort` (the spec leaves tie order between rows unspecified);
`argmin` takes the first minimiser, as `np.argmin` does.  Python set
iteration over the small unmatched index sets is modelled in ascending
index order.
-/

/-- A detection dict as consumed by `Tracker.update`: a `bbox` plus the
optional keys `_enrich` looks for. -/
structure TrackIn where
  bbox : Box
  max_temp : Option ℚ
  confidence : Option ℚ
  validation_type : Option String
  deriving DecidableEq

/-- The `TrackedObject` slots (timestamps as rational seconds). -/
structure TrackedObject where
  object_id : ℕ
  centroid : ℤ × ℤ
  bbox : Box
  first_seen : ℚ
  last_seen : ℚ
  persistence : ℕ
  disappeared : ℕ
  max_temp : ℚ
  alert_sent : Bool
  validation_type : String
  confidence : ℚ
  deriving DecidableEq

/-- `TrackedObject.__init__`: `persistence = 1`, `disappeared = 0`,
`max_temp = 0.0`, `alert_sent = False`, `validation_type = "UNKNOWN"`,
`confidence = 0.0`, both timestamps `now`. -/
def mkTrackedObject (oid : ℕ) (c : ℤ × ℤ) (b : Box) (now : ℚ) : TrackedObject :=
  { object_id := oid, centroid := c, bbox := b, first_seen := now, last_seen := now,
    persistence := 1, disappeared := 0, max_temp := 0, alert_sent := false,
    validation_type := "UNKNOWN", confidence := 0 }

/-- `Tracker._enrich`: copy the optional metadata keys onto the object
(`max_temp` keeps the running maximum). -/
def enrichObj (obj : TrackedObject) (d : TrackIn) : TrackedObject :=
  { obj with
    max_temp :=
      match d.max_temp with
      | some mt => max obj.max_temp mt
      | none => obj.max_temp
    confidence := d.confidence.getD obj.confidence
    validation_type := d.validation_type.getD obj.validation_type }

/-- `Tracker` state: `next_id`, the insertion-ordered id → object map, and
the three construction parameters. -/
structure Tracker where
  next_id : ℕ
  objects : List (ℕ × TrackedObject)
  max_disappeared : ℕ
  max_distance : ℚ
  persistence_threshold : ℕ
  deriving DecidableEq

/-- `Tracker.__init__` (`next_id = 0`, empty map). -/
def mkTracker (md : ℕ) (mdist : ℚ) (pt : ℕ) : Tracker :=
  { next_id := 0, objects := [], max_disappeared := md, max_distance := mdist,
    persistence_threshold := pt }

/-- The centroid `(int(x + w / 2), int(y + h / 2))` of a detection box. -/
def centroidOf (b : Box) : ℤ × ℤ :=
  (pyTrunc ((b.x : ℚ) + (b.w : ℚ) / 2), pyTrunc ((b.y : ℚ) + (b.h : ℚ) / 2))

/-- `Tracker.register` immediately followed by `Tracker._enrich`, the only
way `update` creates a track. -/
def registerDet (t : Tracker) (d : TrackIn) (now : ℚ) : Tracker :=
  { t with
    objects := t.objects
      ++ [(t.next_id, enrichObj (mkTrackedObject t.next_id (centroidOf d.bbox) d.bbox now) d)]
    next_id := t.next_id + 1 }

/-- Squared Euclidean distance between two centroids (the source compares
`sqrt` of this against `max_distance`). -/
def distSq (a b : ℤ × ℤ) : ℚ :=
  (((a.1 - b.1) ^ 2 + (a.2 - b.2) ^ 2 : ℤ) : ℚ)

/-- `D[row, col] > max_distance` where `D` holds the Euclidean distance
`sqrt s`: equivalently `m < 0 ∨ m² < s` (for the nonnegative `s` at hand). -/
def distExceeds (s m : ℚ) : Bool :=
  decide (m < 0) || decide (m ^ 2 < s)

/-- `D.min(axis=1)` for one row (rows are nonempty in context). -/
def listMinQ : List ℚ → ℚ
  | [] => 0
  | a :: rest => rest.foldl min a

/-- `np.argmin` over one row: index of the first minimum. -/
def argminIdx : List ℚ → ℕ
  | [] => 0
  | a :: rest =>
    (rest.enum.foldl (fun best p => if p.2 < best.2 then (p.1 + 1, p.2) else best) (0, a)).1

/-- Placeholder pair for (provably in-range) indexing into the object list. -/
def junkObjPair : ℕ × TrackedObject :=
  (0, mkTrackedObject 0 (0, 0) { x := 0, y := 0, w := 0, h := 0 } 0)

/-- Placeholder detection for (provably in-range) indexing. -/
def junkTrackIn : TrackIn :=
  { bbox := { x := 0, y := 0, w := 0, h := 0 }, max_temp := none, confidence := none,
    validation_type := none }

/-- The per-pair commit of the greedy loop: new centroid and bbox,
`disappeared = 0`, `persistence += 1`, `last_seen = now`, then `_enrich`. -/
def commitMatch (obj : TrackedObject) (c : ℤ × ℤ) (d : TrackIn) (now : ℚ) : TrackedObject :=
  enrichObj
    { obj with
      centroid := c
      bbox := d.bbox
      disappeared := 0
      persistence := obj.persistence + 1
      last_seen := now } d

/-- `Tracker.update` (lines 80–161): the empty-detections branch, the
empty-objects branch, and the greedy-assignment branch (distance matrix,
rows by ascending row-minimum, per-row argmin, commit unused pairs within
`max_distance`, age and cull unmatched tracks, register unmatched
detections). -/
def trackerUpdate (t : Tracker) (dets : List TrackIn) (now : ℚ) : Tracker :=
  if dets.isEmpty then
    let aged := (t.objects.map
      (fun p => (p.1, { p.2 with disappeared := p.2.disappeared + 1 }))).filter
        (fun p => decide (¬ p.2.disappeared > t.max_disappeared))
    { t with objects := aged }
  else if t.objects.isEmpty then
    dets.foldl (fun tr d => registerDet tr d now) t
  else
    let cents := dets.map (fun d => centroidOf d.bbox)
    let objPairs := t.objects
    let dRows : List (List ℚ) :=
      objPairs.map (fun p => cents.map (fun c => distSq p.2.centroid c))
    let rows := (List.range objPairs.length).mergeSort
      (fun i j => decide (listMinQ (dRows.getD i []) ≤ listMinQ (dRows.getD j [])))
    let pairs := rows.map (fun r => (r, argminIdx (dRows.getD r [])))
    let st := pairs.foldl
      (fun acc rc =>
        if rc.1 ∈ acc.1 ∨ rc.2 ∈ acc.2.1 then acc
        else if distExceeds ((dRows.getD rc.1 []).getD rc.2 0) t.max_distance then acc
        else
          let oid := (objPairs.getD rc.1 junkObjPair).1
          (rc.1 :: acc.1,
           rc.2 :: acc.2.1,
           acc.2.2.map (fun p =>
            if p.1 = oid then
              (p.1, commitMatch p.2 (cents.getD rc.2 (0, 0)) (dets.getD rc.2 junkTrackIn) now)
            else p)))
      (([] : List ℕ), ([] : List ℕ), t.objects)
    let objs2 := ((List.range objPairs.length).filter (fun r => decide (r ∉ st.1))).foldl
      (fun os r =>
        let oid := (objPairs.getD r junkObjPair).1
        os.map (fun p =>
          if p.1 = oid then (p.1, { p.2 with disappeared := p.2.disappeared + 1 }) else p))
      st.2.2
    let kept := objs2.filter (fun p => decide (¬ p.2.disappeared > t.max_disappeared))
    let tr2 := { t with objects := kept }
    ((List.range cents.length).filter (fun c => decide (c ∉ st.2.1))).foldl
      (fun tr c => registerDet tr (dets.getD c junkTrackIn) now) tr2

/-- Run one frame per list element, each a single detection with its call
time. -/
def runFrames (t : Tracker) : List (TrackIn × ℚ) → Tracker
  | [] => t
  | p :: rest => runFrames (trackerUpdate t [p.1] p.2) rest

/-- Run `n` consecutive frames with an empty detection list (the
empty-detections branch never reads the clock). -/
def runEmpty (t : Tracker) : ℕ → Tracker
  | 0 => t
  | n + 1 => runEmpty (trackerUpdate t [] 0) n

/-- The drift hypothesis of the single-target scenario: starting from
centroid `c`, each next detection's centroid is within `max_distance` of
the previous one. -/
def driftOK (md : ℚ) : (ℤ × ℤ) → List (TrackIn × ℚ) → Prop
  | _, [] => True
  | c, p :: rest =>
    distExceeds (distSq c (centroidOf p.1.bbox)) md = false
      ∧ driftOK md (centroidOf p.1.bbox) rest

/-- The centroid the single track holds after absorbing `ds`, starting from
`c`. -/
def lastCentroidAfter (c : ℤ × ℤ) : List (TrackIn × ℚ) → ℤ × ℤ
  | [] => c
  | p :: rest => lastCentroidAfter (centroidOf p.1.bbox) rest

/-!
## Claim C1 — single-target persistence / disappearance / id lifecycle
-/

theorem trackerUpdate_single_fromEmpty (t : Tracker) (d : TrackIn) (now : ℚ)
    (h : t.objects = []) :
    trackerUpdate t [d] now = registerDet t d now := by
  unfold trackerUpdate
  rw [if_neg (by simp), if_pos (by simp [h])]
  simp

theorem commitMatch_fields (obj : TrackedObject) (c : ℤ × ℤ) (d : TrackIn) (now : ℚ) :
    (commitMatch obj c d now).object_id = obj.object_id
    ∧ (commitMatch obj c d now).persistence = obj.persistence + 1
    ∧ (commitMatch obj c d now).disappeared = 0
    ∧ (commitMatch obj c d now).centroid = c := by
  unfold commitMatch enrichObj
  refine ⟨rfl, rfl, rfl, rfl⟩

theorem trackerUpdate_single_match (t : Tracker) (i : ℕ) (obj : TrackedObject) (d : TrackIn)
    (now : ℚ) (h : t.objects = [(i, obj)])
    (hd : distExceeds (distSq obj.centroid (centroidOf d.bbox)) t.max_distance = false) :
    trackerUpdate t [d] now
      = { t with objects := [(i, commitMatch obj (centroidOf d.bbox) d now)] } := by
  unfold trackerUpdate
  rw [if_neg (by simp), if_neg (by simp [h])]
  have hr : List.range 1 = [0] := rfl
  simp [h, hd, argminIdx, junkObjPair, commitMatch, enrichObj, hr,
    List.mergeSort_singleton]

theorem trackerUpdate_empty_noObjects (t : Tracker) (now : ℚ) (h : t.objects = []) :
    trackerUpdate t [] now = t := by
  unfold trackerUpdate
  rw [if_pos (by simp)]
  rcases t with ⟨ni, objs, md, mdist, pt⟩
  simp only at h
  subst h
  rfl

theorem trackerUpdate_empty_single (t : Tracker) (i : ℕ) (obj : TrackedObject) (now : ℚ)
    (h : t.objects = [(i, obj)]) :
    trackerUpdate t [] now
      = { t with objects :=
          if obj.disappeared + 1 ≤ t.max_disappeared
          then [(i, { obj with disappeared := obj.disappeared + 1 })] else [] } := by
  unfold trackerUpdate
  rw [if_pos (by simp)]
  by_cases hk : obj.disappeared + 1 ≤ t.max_disappeared
  · rw [if_pos hk]
    simp [h]
    omega
  · rw [if_neg hk]
    simp [h]
    omega

theorem runEmpty_succ_right : ∀ (k : ℕ) (t : Tracker),
    runEmpty t (k + 1) = trackerUpdate (runEmpty t k) [] 0
  | 0, t => rfl
  | k + 1, t => by
    show runEmpty (trackerUpdate t [] 0) (k + 1) = _
    rw [runEmpty_succ_right k (trackerUpdate t [] 0)]
    rfl

theorem runEmpty_single_kept (t : Tracker) (i : ℕ) (obj : TrackedObject)
    (h : t.objects = [(i, obj)]) (h0 : obj.disappeared = 0) :
    ∀ k, k ≤ t.max_disappeared →
      runEmpty t k = { t with objects := [(i, { obj with disappeared := k })] } := by
  intro k
  induction k with
  | zero =>
    intro _
    have : ({ obj with disappeared := 0 } : TrackedObject) = obj := by
      rw [← h0]
    rw [this, ← h]
    rfl
  | succ k ih =>
    intro hk
    rw [runEmpty_succ_right, ih (by omega)]
    rw [trackerUpdate_empty_single _ i { obj with disappeared := k } 0 rfl]
    rw [if_pos (by simp; omega)]

theorem runEmpty_single_gone (t : Tracker) (i : ℕ) (obj : TrackedObject)
    (h : t.objects = [(i, obj)]) (h0 : obj.disappeared = 0) :
    runEmpty t (t.max_disappeared + 1) = { t with objects := [] } := by
  rw [runEmpty_succ_right, runEmpty_single_kept t i obj h h0 t.max_disappeared (le_refl _)]
  rw [trackerUpdate_empty_single _ i { obj with disappeared := t.max_disappeared } 0 rfl]
  rw [if_neg (by simp)]

theorem runFrames_matched :
    ∀ (ds : List (TrackIn × ℚ)) (t : Tracker) (i : ℕ) (obj : TrackedObject),
      t.objects = [(i, obj)] → obj.disappeared = 0 →
      driftOK t.max_distance obj.centroid ds →
      ∃ obj2 : TrackedObject,
        runFrames t ds = { t with objects := [(i, obj2)] }
        ∧ obj2.object_id = obj.object_id
        ∧ obj2.persistence = obj.persistence + ds.length
        ∧ obj2.disappeared = 0
        ∧ obj2.centroid = lastCentroidAfter obj.centroid ds := by
  intro ds
  induction ds with
  | nil =>
    intro t i obj h h0 _
    refine ⟨obj, ?_, rfl, by simp, h0, rfl⟩
    rw [← h]
    rfl
  | cons p rest ih =>
    intro t i obj h h0 hdrift
    rcases hdrift with ⟨hd, htail⟩
    have hstep := trackerUpdate_single_match t i obj p.1 p.2 h hd
    have hfields := commitMatch_fields obj (centroidOf p.1.bbox) p.1 p.2
    have hrun : runFrames t (p :: rest)
        = runFrames (trackerUpdate t [p.1] p.2) rest := rfl
    rcases ih (trackerUpdate t [p.1] p.2) i (commitMatch obj (centroidOf p.1.bbox) p.1 p.2)
        (by rw [hstep]) hfields.2.2.1
        (by
          have hmd : (trackerUpdate t [p.1] p.2).max_distance = t.max_distance := by
            rw [hstep]
          rw [hmd, hfields.2.2.2]
          exact htail) with ⟨obj2, heq, hid, hpers, hdis, hcent⟩
    refine ⟨obj2, ?_, ?_, ?_, hdis, ?_⟩
    · rw [hrun, heq, hstep]
    · rw [hid, hfields.1]
    · rw [hpers, hfields.2.1]
      simp
      omega
    · rw [hcent, hfields.2.2.2]
      rfl

/-- **C1.** Feeding `Tracker.update` the same single detection for
`1 + len(ds)` consecutive frames, with each frame's centroid within
`max_distance` of the previous one, yields exactly one tracked object: its
`object_id` is the `next_id` at registration, its `persistence` equals the
number of frames (registration sets it to `1`, each match increments it) and
`disappeared` is `0`; after `max_disappeared + 1` consecutive empty-list
calls the object map is empty (the id is retired); and a later detection is
registered under the strictly larger id `next_id + 1` — ids are never
reused. -/
theorem tracker_persistence_lifecycle (t0 : Tracker) (d0 : TrackIn × ℚ)
    (ds : List (TrackIn × ℚ)) (h0 : t0.objects = [])
    (hdrift : driftOK t0.max_distance (centroidOf d0.1.bbox) ds) :
    ∃ obj : TrackedObject,
      (runFrames t0 (d0 :: ds)).objects = [(t0.next_id, obj)]
      ∧ obj.object_id = t0.next_id
      ∧ obj.persistence = ds.length + 1
      ∧ obj.disappeared = 0
      ∧ (runFrames t0 (d0 :: ds)).next_id = t0.next_id + 1
      ∧ (runEmpty (runFrames t0 (d0 :: ds)) (t0.max_disappeared + 1)).objects = []
      ∧ ∀ (dn : TrackIn) (tn : ℚ),
          (trackerUpdate (runEmpty (runFrames t0 (d0 :: ds)) (t0.max_disappeared + 1))
              [dn] tn).objects
            = [(t0.next_id + 1,
                enrichObj (mkTrackedObject (t0.next_id + 1) (centroidOf dn.bbox) dn.bbox tn) dn)]
          ∧ t0.next_id < t0.next_id + 1 := by
  have hreg : runFrames t0 (d0 :: ds) = runFrames (registerDet t0 d0.1 d0.2) ds := by
    show runFrames (trackerUpdate t0 [d0.1] d0.2) ds = _
    rw [trackerUpdate_single_fromEmpty t0 d0.1 d0.2 h0]
  have hobjs1 : (registerDet t0 d0.1 d0.2).objects
      = [(t0.next_id,
          enrichObj (mkTrackedObject t0.next_id (centroidOf d0.1.bbox) d0.1.bbox d0.2) d0.1)] := by
    unfold registerDet
    rw [h0]
    rfl
  rcases runFrames_matched ds (registerDet t0 d0.1 d0.2) t0.next_id
      (enrichObj (mkTrackedObject t0.next_id (centroidOf d0.1.bbox) d0.1.bbox d0.2) d0.1)
      hobjs1 rfl hdrift with ⟨obj2, heq, hid, hpers, hdis, _⟩
  have hT : runFrames t0 (d0 :: ds)
      = { registerDet t0 d0.1 d0.2 with objects := [(t0.next_id, obj2)] } := by
    rw [hreg, heq]
  have hmd : (runFrames t0 (d0 :: ds)).max_disappeared = t0.max_disappeared := by
    rw [hT]
    rfl
  have hG : runEmpty (runFrames t0 (d0 :: ds)) (t0.max_disappeared + 1)
      = { runFrames t0 (d0 :: ds) with objects := [] } := by
    rw [← hmd]
    exact runEmpty_single_gone (runFrames t0 (d0 :: ds)) t0.next_id obj2 (by rw [hT]) hdis
  have hGobjs : (runEmpty (runFrames t0 (d0 :: ds)) (t0.max_disappeared + 1)).objects = [] := by
    rw [hG]
  have hGnext : (runEmpty (runFrames t0 (d0 :: ds)) (t0.max_disappeared + 1)).next_id
      = t0.next_id + 1 := by
    rw [hG, hT]
    rfl
  refine ⟨obj2, by rw [hT], by rw [hid]; rfl, ?_, hdis, by rw [hT]; rfl, hGobjs, ?_⟩
  · rw [hpers]
    show 1 + ds.length = ds.length + 1
    omega
  · intro dn tn
    refine ⟨?_, by omega⟩
    rw [trackerUpdate_single_fromEmpty _ dn tn hGobjs]
    unfold registerDet
    rw [hGobjs, hGnext]
    rfl

/-- First witness detection: bbox `(10, 10, 4, 4)`, centroid `(12, 12)`. -/
def wd0 : TrackIn :=
  { bbox := { x := 10, y := 10, w := 4, h := 4 }, max_temp := some 31, confidence := some (8/10),
    validation_type := some "THERMAL_ONLY" }

/-- Second witness detection: bbox `(12, 12, 4, 4)`, centroid `(14, 14)`,
within `60` pixels of the previous one. -/
def wd1 : TrackIn :=
  { bbox := { x := 12, y := 12, w := 4, h := 4 }, max_temp := some 32, confidence := some (9/10),
    validation_type := some "THERMAL_ONLY" }

/-- Witness for C1 at the default `Tracker(15, 60.0, 3)`: two drifting
frames give persistence 2; sixteen empty frames retire id 0; the next
detection gets id 1. -/
theorem tracker_persistence_lifecycle_witness :
    ∃ obj : TrackedObject,
      (runFrames (mkTracker 15 60 3) [(wd0, 100), (wd1, 101)]).objects = [(0, obj)]
      ∧ obj.persistence = 2
      ∧ (runEmpty (runFrames (mkTracker 15 60 3) [(wd0, 100), (wd1, 101)]) 16).objects = []
      ∧ (trackerUpdate (runEmpty (runFrames (mkTracker 15 60 3) [(wd0, 100), (wd1, 101)]) 16)
            [wd0] 200).objects
          = [(1, enrichObj (mkTrackedObject 1 (centroidOf wd0.bbox) wd0.bbox 200) wd0)] := by
  rcases tracker_persistence_lifecycle (mkTracker 15 60 3) (wd0, 100) [(wd1, 101)] rfl
      ⟨by norm_num [distExceeds, distSq, centroidOf, pyTrunc, wd0, wd1, mkTracker], trivial⟩
    with ⟨obj, h1, _, h3, _, _, h6, h7⟩
  exact ⟨obj, h1, by rw [h3]; rfl, h6, (h7 wd0 200).1⟩

/-!
## Claim C4 — bbox smoothing interface of the tracker

`src/backend/tracker.py` contains no bbox smoothing at all.  The
`TrackedObject.__slots__` tuple and the `Tracker.__init__` keyword
parameters are embedded verbatim below, together with the keyword arguments
`FusionPipeline.__init__` passes to `Tracker(...)` (fusion_pipeline.py
lines 186–191) and the tracked-object attribute the pipeline reads for its
detection events (line 452) and annotation (line 522).
-/

/-- The `__slots__` of `TrackedObject` (tracker.py lines 19–25). -/
def trackedObjectSlots : List String :=
  ["object_id", "centroid", "bbox", "first_seen", "last_seen", "persistence",
   "disappeared", "max_temp", "alert_sent", "validation_type", "confidence"]

/-- The keyword parameters accepted by `Tracker.__init__` (tracker.py
lines 55–60). -/
def trackerInitParams : List String :=
  ["max_disappeared", "max_distance", "persistence_threshold"]

/-- The keyword arguments `FusionPipeline.__init__` passes to `Tracker(...)`
(fusion_pipeline.py lines 186–191). -/
def fusionPipelineTrackerKwargs : List String :=
  ["max_disappeared", "max_distance", "persistence_threshold", "bbox_alpha", "min_movement"]

/-- The tracked-object attribute `FusionPipeline` reads as the bbox of its
detection-event hotspots and of its annotation overlay. -/
def fusionPipelineBboxAttr : String := "smooth_bbox"

/-- **C4 (code bug).** The claim describes an EMA-smoothed `smoothed_bbox`
maintained by `Tracker.update` with `bbox_alpha = 0.4` / `min_movement`,
raw bbox carried by tracking — but `tracker.py` implements no smoothing:
`Tracker.__init__` accepts neither `bbox_alpha` nor `min_movement` (so
`FusionPipeline.__init__`, which passes both, raises `TypeError` at
construction), `TrackedObject.__slots__` has no `smooth_bbox`/
`smoothed_bbox` attribute (so the pipeline's event path would raise
`AttributeError`), while `Tracker.update` does store the raw matched bbox
on every commit. -/
theorem tracker_smoothing_interface_mismatch :
    "bbox_alpha" ∈ fusionPipelineTrackerKwargs
    ∧ "min_movement" ∈ fusionPipelineTrackerKwargs
    ∧ "bbox_alpha" ∉ trackerInitParams
    ∧ "min_movement" ∉ trackerInitParams
    ∧ fusionPipelineBboxAttr ∉ trackedObjectSlots
    ∧ "smoothed_bbox" ∉ trackedObjectSlots
    ∧ (∀ (obj : TrackedObject) (c : ℤ × ℤ) (d : TrackIn) (now : ℚ),
        (commitMatch obj c d now).bbox = d.bbox) := by
  refine ⟨?_, ?_, ?_, ?_, ?_, ?_, fun obj c d now => rfl⟩
  · simp [fusionPipelineTrackerKwargs]
  · simp [fusionPipelineTrackerKwargs]
  · simp [trackerInitParams]
  · simp [trackerInitParams]
  · simp [fusionPipelineBboxAttr, trackedObjectSlots]
  · simp [trackedObjectSlots]

/-!
## AlertManager — `src/backend/alert_manager.py`

`time.time()` is the explicit `now` argument; the payload's
`datetime.utcnow()` timestamp is represented by the same instant.  The
returned tracked map is threaded explicitly because `check_and_emit`
mutates `obj.alert_sent` in place.
-/

/-- `AlertManager` state: the three constructor parameters and the
`{object_id: last_alert_timestamp}` history. -/
structure AlertManager where
  cooldown : ℚ
  require_validation : Option String
  persistence_threshold : ℕ
  alert_history : List (ℕ × ℚ)
  deriving DecidableEq

/-- `AlertManager.__init__` (empty history). -/
def mkAlertManager (cd : ℚ) (rv : Option String) (pt : ℕ) : AlertManager :=
  { cooldown := cd, require_validation := rv, persistence_threshold := pt, alert_history := [] }

/-- One alert payload, as built by `_format_payload`. -/
structure AlertPayload where
  id : ℕ
  type : String
  validation : String
  max_temp : ℚ
  confidence : ℚ
  persistence : ℕ
  frame : ℕ
  timestamp : ℚ
  deriving DecidableEq

/-- `AlertManager._format_payload`. -/
def formatPayload (obj : TrackedObject) (frame_number : ℕ) (now : ℚ) : AlertPayload :=
  { id := obj.object_id, type := "LIFEFORM_DETECTED", validation := obj.validation_type,
    max_temp := pyRound obj.max_temp 1, confidence := pyRound (obj.confidence * 100) 1,
    persistence := obj.persistence, frame := frame_number, timestamp := now }

/-- Python dict assignment `d[k] = v`: overwrite in place when the key is
present, append otherwise. -/
def setEntry (l : List (ℕ × ℚ)) (k : ℕ) (v : ℚ) : List (ℕ × ℚ) :=
  if l.any (fun p => p.1 = k) then l.map (fun p => if p.1 = k then (k, v) else p)
  else l ++ [(k, v)]

/-- The validation filter: `if self.require_validation:` (Python truthiness,
so `None` and `""` disable it) followed by
`if obj.validation_type != self.require_validation: continue`. -/
def valMismatch (rv : Option String) (vt : String) : Bool :=
  match rv with
  | none => false
  | some s => if s = "" then false else decide (vt ≠ s)

/-- One iteration of the `check_and_emit` loop over `tracked_objects`:
skip on low persistence; skip when already alerted and within the cooldown
(`_alert_history.get(oid, 0)`); skip on validation mismatch; otherwise set
`alert_sent`, record `last_alert_time[oid] = now` and append the payload. -/
def alertStep (cd : ℚ) (rv : Option String) (thr : ℕ) (now : ℚ) (fn : ℕ)
    (acc : List (ℕ × ℚ) × List (ℕ × TrackedObject) × List AlertPayload)
    (e : ℕ × TrackedObject) :
    List (ℕ × ℚ) × List (ℕ × TrackedObject) × List AlertPayload :=
  if e.2.persistence < thr then (acc.1, acc.2.1 ++ [e], acc.2.2)
  else if e.2.alert_sent ∧ now - ((acc.1.lookup e.1).getD 0) < cd then
    (acc.1, acc.2.1 ++ [e], acc.2.2)
  else if valMismatch rv e.2.validation_type then (acc.1, acc.2.1 ++ [e], acc.2.2)
  else
    (setEntry acc.1 e.1 now,
     acc.2.1 ++ [(e.1, { e.2 with alert_sent := true })],
     acc.2.2 ++ [formatPayload { e.2 with alert_sent := true } fn now])

/-- The result of `check_and_emit`: the manager (with its updated, then
garbage-collected history), the tracked map as left after the in-place
`alert_sent` mutations, and the returned payload list. -/
structure AlertResult where
  mgr : AlertManager
  objs : List (ℕ × TrackedObject)
  alerts : List AlertPayload

/-- `AlertManager.check_and_emit` (lines 45–97): the loop over the tracked
map in order, then `_cleanup` dropping history entries with
`now - v > cooldown * 2`. -/
def checkAndEmit (am : AlertManager) (tracked : List (ℕ × TrackedObject)) (fn : ℕ) (now : ℚ) :
    AlertResult :=
  let st := tracked.foldl
    (alertStep am.cooldown am.require_validation am.persistence_threshold now fn)
    (am.alert_history, [], [])
  let cleaned := st.1.filter (fun p => decide (¬ (now - p.2 > am.cooldown * 2)))
  { mgr := { am with alert_history := cleaned }, objs := st.2.1, alerts := st.2.2 }

/-- The condition under which the loop body fires an alert for `(oid, obj)`
against history `h`. -/
def alertFires (cd : ℚ) (rv : Option String) (thr : ℕ) (now : ℚ) (h : List (ℕ × ℚ))
    (oid : ℕ) (obj : TrackedObject) : Prop :=
  ¬ obj.persistence < thr
  ∧ ¬ (obj.alert_sent ∧ now - ((h.lookup oid).getD 0) < cd)
  ∧ valMismatch rv obj.validation_type = false

theorem alertStep_skip (cd : ℚ) (rv : Option String) (thr : ℕ) (now : ℚ) (fn : ℕ)
    (h : List (ℕ × ℚ)) (o : List (ℕ × TrackedObject)) (a : List AlertPayload)
    (e : ℕ × TrackedObject) (hnf : ¬ alertFires cd rv thr now h e.1 e.2) :
    alertStep cd rv thr now fn (h, o, a) e = (h, o ++ [e], a) := by
  unfold alertStep
  unfold alertFires at hnf
  split_ifs with h1 h2 h3
  · rfl
  · rfl
  · rfl
  · exact absurd ⟨h1, h2, Bool.of_not_eq_true h3⟩ hnf

theorem alertStep_fire (cd : ℚ) (rv : Option String) (thr : ℕ) (now : ℚ) (fn : ℕ)
    (h : List (ℕ × ℚ)) (o : List (ℕ × TrackedObject)) (a : List AlertPayload)
    (e : ℕ × TrackedObject) (hf : alertFires cd rv thr now h e.1 e.2) :
    alertStep cd rv thr now fn (h, o, a) e
      = (setEntry h e.1 now, o ++ [(e.1, { e.2 with alert_sent := true })],
         a ++ [formatPayload { e.2 with alert_sent := true } fn now]) := by
  unfold alertStep
  rcases hf with ⟨h1, h2, h3⟩
  rw [if_neg h1, if_neg h2, if_neg (by rw [h3]; exact Bool.false_ne_true)]

instance (cd : ℚ) (rv : Option String) (thr : ℕ) (now : ℚ) (h : List (ℕ × ℚ))
    (oid : ℕ) (obj : TrackedObject) : Decidable (alertFires cd rv thr now h oid obj) := by
  unfold alertFires
  infer_instance

/-- Recursive characterization of the `check_and_emit` loop, used to reason
about the source-shaped `foldl` (see `foldl_alertStep_eq_alertLoop`). -/
def alertLoop (cd : ℚ) (rv : Option String) (thr : ℕ) (now : ℚ) (fn : ℕ) :
    List (ℕ × TrackedObject) → List (ℕ × ℚ) →
    List (ℕ × ℚ) × List (ℕ × TrackedObject) × List AlertPayload
  | [], h => (h, [], [])
  | e :: rest, h =>
    if alertFires cd rv thr now h e.1 e.2 then
      let tail := alertLoop cd rv thr now fn rest (setEntry h e.1 now)
      (tail.1, (e.1, { e.2 with alert_sent := true }) :: tail.2.1,
       formatPayload { e.2 with alert_sent := true } fn now :: tail.2.2)
    else
      let tail := alertLoop cd rv thr now fn rest h
      (tail.1, e :: tail.2.1, tail.2.2)

theorem foldl_alertStep_eq_alertLoop (cd : ℚ) (rv : Option String) (thr : ℕ) (now : ℚ)
    (fn : ℕ) :
    ∀ (l : List (ℕ × TrackedObject)) (h : List (ℕ × ℚ)) (o : List (ℕ × TrackedObject))
      (a : List AlertPayload),
      l.foldl (alertStep cd rv thr now fn) (h, o, a)
        = ((alertLoop cd rv thr now fn l h).1,
           o ++ (alertLoop cd rv thr now fn l h).2.1,
           a ++ (alertLoop cd rv thr now fn l h).2.2) := by
  intro l
  induction l with
  | nil => intro h o a; simp [alertLoop]
  | cons e rest ih =>
    intro h o a
    rw [List.foldl_cons]
    by_cases hf : alertFires cd rv thr now h e.1 e.2
    · rw [alertStep_fire cd rv thr now fn h o a e hf, ih]
      simp only [alertLoop]
      rw [if_pos hf]
      simp
    · rw [alertStep_skip cd rv thr now fn h o a e hf, ih]
      simp only [alertLoop]
      rw [if_neg hf]
      simp

theorem lookup_eq_none_of_not_any (k : ℕ) :
    ∀ l : List (ℕ × ℚ), l.any (fun p => p.1 = k) = false → l.lookup k = none := by
  intro l
  induction l with
  | nil => intro _; rfl
  | cons p rest ih =>
    intro h
    rw [List.any_cons, Bool.or_eq_false_iff] at h
    have hne : k ≠ p.1 := fun he => by
      simp only [decide_eq_false_iff_not] at h
      exact h.1 he.symm
    rcases p with ⟨a, b⟩
    have hb : (k == a) = false := beq_eq_false_iff_ne.mpr hne
    rw [List.lookup_cons, hb]
    exact ih h.2

theorem lookup_append_single_ne (k k2 : ℕ) (v : ℚ) (hne : k2 ≠ k) :
    ∀ l : List (ℕ × ℚ), (l ++ [(k, v)]).lookup k2 = l.lookup k2 := by
  intro l
  induction l with
  | nil =>
    have hb : (k2 == k) = false := beq_eq_false_iff_ne.mpr hne
    show ([(k, v)] : List (ℕ × ℚ)).lookup k2 = none
    rw [List.lookup_cons, hb]
    rfl
  | cons p rest ih =>
    rcases p with ⟨a, b⟩
    rw [List.cons_append, List.lookup_cons, List.lookup_cons]
    cases hb : (k2 == a)
    · exact ih
    · rfl

theorem lookup_map_overwrite (k : ℕ) (v : ℚ) :
    ∀ l : List (ℕ × ℚ), l.any (fun p => p.1 = k) = true →
      (l.map (fun p => if p.1 = k then (k, v) else p)).lookup k = some v := by
  intro l
  induction l with
  | nil => intro h; simp at h
  | cons p rest ih =>
    intro h
    by_cases hp : p.1 = k
    · rw [List.map_cons, if_pos hp, List.lookup_cons, beq_self_eq_true]
    · rw [List.map_cons, if_neg hp]
      rcases p with ⟨a, b⟩
      simp only at hp
      have hb : (k == a) = false := beq_eq_false_iff_ne.mpr (fun he => hp he.symm)
      rw [List.lookup_cons, hb]
      rw [List.any_cons] at h
      rcases Bool.or_eq_true_iff.mp h with h1 | h1
      · exact absurd (of_decide_eq_true h1) hp
      · exact ih h1

theorem lookup_map_preserve (k k2 : ℕ) (v : ℚ) (hne : k2 ≠ k) :
    ∀ l : List (ℕ × ℚ),
      (l.map (fun p => if p.1 = k then (k, v) else p)).lookup k2 = l.lookup k2 := by
  intro l
  induction l with
  | nil => rfl
  | cons p rest ih =>
    rcases p with ⟨a, b⟩
    by_cases hp : a = k
    · subst hp
      rw [List.map_cons, if_pos rfl]
      have hb : (k2 == a) = false := beq_eq_false_iff_ne.mpr hne
      rw [List.lookup_cons, hb, List.lookup_cons, hb]
      exact ih
    · rw [List.map_cons, if_neg (by simpa using hp)]
      rw [List.lookup_cons, List.lookup_cons]
      cases hb : (k2 == a)
      · exact ih
      · rfl

theorem lookup_append_left_none (k : ℕ) (l2 : List (ℕ × ℚ)) :
    ∀ l : List (ℕ × ℚ), l.lookup k = none → (l ++ l2).lookup k = l2.lookup k := by
  intro l
  induction l with
  | nil => intro _; rfl
  | cons p rest ih =>
    intro hnone
    rcases p with ⟨a, b⟩
    rw [List.lookup_cons] at hnone
    rw [List.cons_append, List.lookup_cons]
    cases hb : (k == a)
    · rw [hb] at hnone
      exact ih hnone
    · rw [hb] at hnone
      exact Option.noConfusion hnone

theorem lookup_setEntry_self (l : List (ℕ × ℚ)) (k : ℕ) (v : ℚ) :
    (setEntry l k v).lookup k = some v := by
  unfold setEntry
  split
  · next h => exact lookup_map_overwrite k v l h
  · next h =>
    have hnone : l.lookup k = none :=
      lookup_eq_none_of_not_any k l (Bool.of_not_eq_true h)
    rw [lookup_append_left_none k [(k, v)] l hnone, List.lookup_cons, beq_self_eq_true]

theorem lookup_setEntry_ne (l : List (ℕ × ℚ)) (k k2 : ℕ) (v : ℚ) (hne : k2 ≠ k) :
    (setEntry l k v).lookup k2 = l.lookup k2 := by
  unfold setEntry
  split
  · exact lookup_map_preserve k k2 v hne l
  · exact lookup_append_single_ne k k2 v hne l

theorem alertFires_congr (cd : ℚ) (rv : Option String) (thr : ℕ) (now : ℚ)
    (h h2 : List (ℕ × ℚ)) (oid : ℕ) (obj : TrackedObject)
    (he : h.lookup oid = h2.lookup oid) :
    alertFires cd rv thr now h oid obj ↔ alertFires cd rv thr now h2 oid obj := by
  unfold alertFires
  rw [he]

theorem lookup_filter_keep (p : ℕ × ℚ → Bool) :
    ∀ (l : List (ℕ × ℚ)) (k : ℕ) (v : ℚ), l.lookup k = some v → p (k, v) = true →
      (l.filter p).lookup k = some v := by
  intro l
  induction l with
  | nil => intro k v hl _; exact Option.noConfusion hl
  | cons e rest ih =>
    intro k v hl hp
    rcases e with ⟨a, b⟩
    rw [List.lookup_cons] at hl
    cases hb : (k == a)
    · rw [hb] at hl
      rw [List.filter_cons]
      split
      · rw [List.lookup_cons, hb]
        exact ih k v hl hp
      · exact ih k v hl hp
    · rw [hb] at hl
      have hk : k = a := beq_iff_eq.mp hb
      have hv : b = v := Option.some.inj hl
      subst hk
      subst hv
      rw [List.filter_cons, if_pos hp, List.lookup_cons, beq_self_eq_true]

theorem alertLoop_other (cd : ℚ) (rv : Option String) (thr : ℕ) (now : ℚ) (fn : ℕ)
    (oid : ℕ) :
    ∀ (l : List (ℕ × TrackedObject)) (h : List (ℕ × ℚ)),
      (∀ e ∈ l, e.1 ≠ oid ∧ e.2.object_id ≠ oid) →
      ((alertLoop cd rv thr now fn l h).1.lookup oid = h.lookup oid)
      ∧ ((alertLoop cd rv thr now fn l h).2.2.filter (fun p => p.id == oid) = []) := by
  intro l
  induction l with
  | nil => intro h _; exact ⟨rfl, rfl⟩
  | cons e rest ih =>
    intro h hl
    have he := hl e (List.mem_cons_self e rest)
    have htail : ∀ x ∈ rest, x.1 ≠ oid ∧ x.2.object_id ≠ oid :=
      fun x hx => hl x (List.mem_cons_of_mem e hx)
    simp only [alertLoop]
    split
    · refine ⟨?_, ?_⟩
      · rw [(ih (setEntry h e.1 now) htail).1,
          lookup_setEntry_ne h e.1 oid now (Ne.symm he.1)]
      · rw [List.filter_cons, if_neg]
        · exact (ih (setEntry h e.1 now) htail).2
        · simp only [formatPayload]
          rw [beq_eq_false_iff_ne.mpr he.2]
          exact Bool.false_ne_true
    · exact ⟨(ih h htail).1, (ih h htail).2⟩

theorem alertLoop_key_filter (cd : ℚ) (rv : Option String) (thr : ℕ) (now : ℚ) (fn : ℕ)
    (oid : ℕ) (obj : TrackedObject) (hobj : obj.object_id = oid) :
    ∀ (l1 l2 : List (ℕ × TrackedObject)) (h : List (ℕ × ℚ)),
      (∀ e ∈ l1, e.1 ≠ oid ∧ e.2.object_id ≠ oid) →
      (∀ e ∈ l2, e.1 ≠ oid ∧ e.2.object_id ≠ oid) →
      ((alertLoop cd rv thr now fn (l1 ++ (oid, obj) :: l2) h).2.2.filter
          (fun p => p.id == oid)
        = (if alertFires cd rv thr now h oid obj
           then [formatPayload { obj with alert_sent := true } fn now] else []))
      ∧ ((alertLoop cd rv thr now fn (l1 ++ (oid, obj) :: l2) h).1.lookup oid
        = (if alertFires cd rv thr now h oid obj then some now else h.lookup oid)) := by
  intro l1
  induction l1 with
  | nil =>
    intro l2 h _ hm2
    simp only [List.nil_append, alertLoop]
    split
    · next hf =>
      refine ⟨?_, ?_⟩
      · rw [List.filter_cons, if_pos (by simp [formatPayload, hobj]),
          (alertLoop_other cd rv thr now fn oid l2 (setEntry h oid now) hm2).2]
      · rw [(alertLoop_other cd rv thr now fn oid l2 (setEntry h oid now) hm2).1,
          lookup_setEntry_self]
    · next hf =>
      refine ⟨?_, ?_⟩
      · rw [(alertLoop_other cd rv thr now fn oid l2 h hm2).2]
      · rw [(alertLoop_other cd rv thr now fn oid l2 h hm2).1]
  | cons e l1x ih =>
    intro l2 h hm1 hm2
    have he := hm1 e (List.mem_cons_self e l1x)
    have h1x : ∀ x ∈ l1x, x.1 ≠ oid ∧ x.2.object_id ≠ oid :=
      fun x hx => hm1 x (List.mem_cons_of_mem e hx)
    rw [List.cons_append]
    simp only [alertLoop]
    split
    · next hf =>
      have hlook : (setEntry h e.1 now).lookup oid = h.lookup oid :=
        lookup_setEntry_ne h e.1 oid now (Ne.symm he.1)
      have hcong := alertFires_congr cd rv thr now (setEntry h e.1 now) h oid obj hlook
      rcases ih l2 (setEntry h e.1 now) h1x hm2 with ⟨hfil, hlk⟩
      refine ⟨?_, ?_⟩
      · rw [List.filter_cons, if_neg (by
          simp only [formatPayload]
          rw [beq_eq_false_iff_ne.mpr he.2]
          exact Bool.false_ne_true)]
        rw [hfil]
        by_cases hf2 : alertFires cd rv thr now h oid obj
        · rw [if_pos (hcong.mpr hf2), if_pos hf2]
        · rw [if_neg (fun hc => hf2 (hcong.mp hc)), if_neg hf2]
      · rw [hlk]
        by_cases hf2 : alertFires cd rv thr now h oid obj
        · rw [if_pos (hcong.mpr hf2), if_pos hf2]
        · rw [if_neg (fun hc => hf2 (hcong.mp hc)), if_neg hf2, hlook]
    · next hf =>
      rcases ih l2 h h1x hm2 with ⟨hfil, hlk⟩
      exact ⟨hfil, hlk⟩

theorem checkAndEmit_key (am : AlertManager) (l1 l2 : List (ℕ × TrackedObject)) (oid : ℕ)
    (obj : TrackedObject) (fn : ℕ) (now : ℚ)
    (hm1 : ∀ e ∈ l1, e.1 ≠ oid ∧ e.2.object_id ≠ oid)
    (hm2 : ∀ e ∈ l2, e.1 ≠ oid ∧ e.2.object_id ≠ oid)
    (hobj : obj.object_id = oid) :
    ((checkAndEmit am (l1 ++ (oid, obj) :: l2) fn now).alerts.filter (fun p => p.id == oid)
      = (if alertFires am.cooldown am.require_validation am.persistence_threshold now
            am.alert_history oid obj
         then [formatPayload { obj with alert_sent := true } fn now] else []))
    ∧ (alertFires am.cooldown am.require_validation am.persistence_threshold now
          am.alert_history oid obj →
        ¬ (now - now > am.cooldown * 2) →
        (checkAndEmit am (l1 ++ (oid, obj) :: l2) fn now).mgr.alert_history.lookup oid
          = some now)
    ∧ (¬ alertFires am.cooldown am.require_validation am.persistence_threshold now
          am.alert_history oid obj →
        ∀ v : ℚ, am.alert_history.lookup oid = some v → ¬ (now - v > am.cooldown * 2) →
        (checkAndEmit am (l1 ++ (oid, obj) :: l2) fn now).mgr.alert_history.lookup oid
          = some v) := by
  have hloop := alertLoop_key_filter am.cooldown am.require_validation
    am.persistence_threshold now fn oid obj hobj l1 l2 am.alert_history hm1 hm2
  have hfold := foldl_alertStep_eq_alertLoop am.cooldown am.require_validation
    am.persistence_threshold now fn (l1 ++ (oid, obj) :: l2) am.alert_history [] []
  refine ⟨?_, ?_, ?_⟩
  · show (((l1 ++ (oid, obj) :: l2).foldl
        (alertStep am.cooldown am.require_validation am.persistence_threshold now fn)
        (am.alert_history, [], [])).2.2.filter (fun p => p.id == oid)) = _
    rw [hfold]
    simpa using hloop.1
  · intro hf hkeep
    show (((l1 ++ (oid, obj) :: l2).foldl
        (alertStep am.cooldown am.require_validation am.persistence_threshold now fn)
        (am.alert_history, [], [])).1.filter
          (fun p => decide (¬ (now - p.2 > am.cooldown * 2)))).lookup oid = some now
    rw [hfold]
    refine lookup_filter_keep _ _ oid now ?_ (decide_eq_true hkeep)
    rw [hloop.2, if_pos hf]
  · intro hnf v hv hkeep
    show (((l1 ++ (oid, obj) :: l2).foldl
        (alertStep am.cooldown am.require_validation am.persistence_threshold now fn)
        (am.alert_history, [], [])).1.filter
          (fun p => decide (¬ (now - p.2 > am.cooldown * 2)))).lookup oid = some v
    rw [hfold]
    refine lookup_filter_keep _ _ oid v ?_ (decide_eq_true hkeep)
    rw [hloop.2, if_neg hnf]
    exact hv

/-- **C2.** For a tracked object whose persistence has reached
`persistence_threshold` and which has not been alerted yet
(`alert_sent = false`), `check_and_emit` returns exactly one payload for its
id and records `last_alert_time = t1`; every subsequent call for the same
still-qualifying id at a time with `t2 − t1 < cooldown_seconds` returns zero
payloads for it (and leaves the recorded time `t1` in place); and the first
qualifying call at a time with `t3 − t1 > cooldown_seconds` — from any
manager state that still records `t1`, as the skipped calls do — returns
exactly one more payload for it. -/
theorem alert_fire_cooldown_realert
    (am : AlertManager) (oid F1 : ℕ) (t1 : ℚ) (obj1 : TrackedObject)
    (l1 l2 : List (ℕ × TrackedObject))
    (hcd : 0 ≤ am.cooldown)
    (hm1 : ∀ e ∈ l1, e.1 ≠ oid ∧ e.2.object_id ≠ oid)
    (hm2 : ∀ e ∈ l2, e.1 ≠ oid ∧ e.2.object_id ≠ oid)
    (hobj : obj1.object_id = oid)
    (hq1 : am.persistence_threshold ≤ obj1.persistence)
    (hq2 : obj1.alert_sent = false)
    (hq3 : valMismatch am.require_validation obj1.validation_type = false) :
    ((checkAndEmit am (l1 ++ (oid, obj1) :: l2) F1 t1).alerts.filter
        (fun p => p.id == oid)).length = 1
    ∧ (checkAndEmit am (l1 ++ (oid, obj1) :: l2) F1 t1).mgr.alert_history.lookup oid
        = some t1
    ∧ (∀ (obj2 : TrackedObject) (l3 l4 : List (ℕ × TrackedObject)) (F2 : ℕ) (t2 : ℚ),
        (∀ e ∈ l3, e.1 ≠ oid ∧ e.2.object_id ≠ oid) →
        (∀ e ∈ l4, e.1 ≠ oid ∧ e.2.object_id ≠ oid) →
        obj2.object_id = oid → obj2.alert_sent = true → t2 - t1 < am.cooldown →
        ((checkAndEmit (checkAndEmit am (l1 ++ (oid, obj1) :: l2) F1 t1).mgr
              (l3 ++ (oid, obj2) :: l4) F2 t2).alerts.filter
            (fun p => p.id == oid)).length = 0
        ∧ (checkAndEmit (checkAndEmit am (l1 ++ (oid, obj1) :: l2) F1 t1).mgr
              (l3 ++ (oid, obj2) :: l4) F2 t2).mgr.alert_history.lookup oid = some t1)
    ∧ (∀ (am3 : AlertManager) (obj3 : TrackedObject) (l5 l6 : List (ℕ × TrackedObject))
          (F3 : ℕ) (t3 : ℚ),
        am3.cooldown = am.cooldown →
        am3.require_validation = am.require_validation →
        am3.persistence_threshold = am.persistence_threshold →
        am3.alert_history.lookup oid = some t1 →
        (∀ e ∈ l5, e.1 ≠ oid ∧ e.2.object_id ≠ oid) →
        (∀ e ∈ l6, e.1 ≠ oid ∧ e.2.object_id ≠ oid) →
        obj3.object_id = oid → am.persistence_threshold ≤ obj3.persistence →
        valMismatch am.require_validation obj3.validation_type = false →
        am.cooldown < t3 - t1 →
        ((checkAndEmit am3 (l5 ++ (oid, obj3) :: l6) F3 t3).alerts.filter
            (fun p => p.id == oid)).length = 1) := by
  have hfire1 : alertFires am.cooldown am.require_validation am.persistence_threshold t1
      am.alert_history oid obj1 := by
    refine ⟨Nat.not_lt.mpr hq1, ?_, hq3⟩
    intro hc
    rw [hq2] at hc
    exact Bool.false_ne_true hc.1
  have hk1 := checkAndEmit_key am l1 l2 oid obj1 F1 t1 hm1 hm2 hobj
  have hhist1 : (checkAndEmit am (l1 ++ (oid, obj1) :: l2) F1 t1).mgr.alert_history.lookup oid
      = some t1 := by
    refine hk1.2.1 hfire1 ?_
    rw [sub_self]
    intro hgt
    linarith
  refine ⟨by rw [hk1.1, if_pos hfire1]; rfl, hhist1, ?_, ?_⟩
  · intro obj2 l3 l4 F2 t2 hm3 hm4 hobj2 hsent2 hlt
    have hnf2 : ¬ alertFires (checkAndEmit am (l1 ++ (oid, obj1) :: l2) F1 t1).mgr.cooldown
        (checkAndEmit am (l1 ++ (oid, obj1) :: l2) F1 t1).mgr.require_validation
        (checkAndEmit am (l1 ++ (oid, obj1) :: l2) F1 t1).mgr.persistence_threshold t2
        (checkAndEmit am (l1 ++ (oid, obj1) :: l2) F1 t1).mgr.alert_history oid obj2 := by
      intro hf
      rcases hf with ⟨_, hno, _⟩
      refine hno ⟨hsent2, ?_⟩
      rw [hhist1]
      exact hlt
    have hk2 := checkAndEmit_key (checkAndEmit am (l1 ++ (oid, obj1) :: l2) F1 t1).mgr
      l3 l4 oid obj2 F2 t2 hm3 hm4 hobj2
    refine ⟨by rw [hk2.1, if_neg hnf2]; rfl, ?_⟩
    refine hk2.2.2 hnf2 t1 hhist1 ?_
    intro hgt
    have hcd2 : (checkAndEmit am (l1 ++ (oid, obj1) :: l2) F1 t1).mgr.cooldown
        = am.cooldown := rfl
    rw [hcd2] at hgt
    linarith
  · intro am3 obj3 l5 l6 F3 t3 hc3 hr3 hp3 hh3 hm5 hm6 hobj3 hq31 hq33 hgt
    have hf3 : alertFires am3.cooldown am3.require_validation am3.persistence_threshold t3
        am3.alert_history oid obj3 := by
      refine ⟨?_, ?_, ?_⟩
      · rw [hp3]
        exact Nat.not_lt.mpr hq31
      · intro hc
        rcases hc with ⟨_, hlt3⟩
        rw [hh3] at hlt3
        simp only [Option.getD_some] at hlt3
        rw [hc3] at hlt3
        linarith
      · rw [hr3]
        exact hq33
    have hk3 := checkAndEmit_key am3 l5 l6 oid obj3 F3 t3 hm5 hm6 hobj3
    rw [hk3.1, if_pos hf3]
    rfl

/-- A confirmed, not-yet-alerted tracked object used by the alert
witnesses. -/
def wObj1 : TrackedObject :=
  { object_id := 5, centroid := (12, 12), bbox := { x := 10, y := 10, w := 4, h := 4 },
    first_seen := 990, last_seen := 1000, persistence := 3, disappeared := 0,
    max_temp := 32, alert_sent := false, validation_type := "THERMAL_ONLY",
    confidence := 8/10 }

/-- The same object one frame later (already alerted). -/
def wObj2 : TrackedObject := { wObj1 with persistence := 4, alert_sent := true }

/-- The same object after the cooldown has passed. -/
def wObj3 : TrackedObject := { wObj1 with persistence := 5, alert_sent := true }

/-- Witness for C2 at `cooldown = 300`, `threshold = 3`: one alert at
`t = 1000`, zero at `t = 1001`, one more at `t = 1301`. -/
theorem alert_fire_cooldown_realert_witness :
    ((checkAndEmit (mkAlertManager 300 none 3) [(5, wObj1)] 10 1000).alerts.filter
        (fun p => p.id == 5)).length = 1
    ∧ ((checkAndEmit (checkAndEmit (mkAlertManager 300 none 3) [(5, wObj1)] 10 1000).mgr
          [(5, wObj2)] 11 1001).alerts.filter (fun p => p.id == 5)).length = 0
    ∧ ((checkAndEmit (checkAndEmit (checkAndEmit (mkAlertManager 300 none 3)
          [(5, wObj1)] 10 1000).mgr [(5, wObj2)] 11 1001).mgr
          [(5, wObj3)] 12 1301).alerts.filter (fun p => p.id == 5)).length = 1 := by
  have H := alert_fire_cooldown_realert (mkAlertManager 300 none 3) 5 10 1000 wObj1 [] []
    (by norm_num [mkAlertManager])
    (by intro e he; simp at he)
    (by intro e he; simp at he)
    rfl
    (Nat.le_refl 3)
    rfl
    rfl
  have H2 := H.2.2.1 wObj2 [] [] 11 1001
    (by intro e he; simp at he)
    (by intro e he; simp at he)
    rfl
    rfl
    (by norm_num [mkAlertManager])
  have H3 := H.2.2.2 (checkAndEmit (checkAndEmit (mkAlertManager 300 none 3)
      [(5, wObj1)] 10 1000).mgr [(5, wObj2)] 11 1001).mgr wObj3 [] [] 12 1301
    rfl rfl rfl
    H2.2
    (by intro e he; simp at he)
    (by intro e he; simp at he)
    rfl
    (by norm_num [mkAlertManager, wObj3, wObj1])
    rfl
    (by norm_num [mkAlertManager])
  exact ⟨H.1, H2.1, H3⟩

theorem alertLoop_objs_shape (cd : ℚ) (rv : Option String) (thr : ℕ) (now : ℚ) (fn : ℕ) :
    ∀ (l : List (ℕ × TrackedObject)) (h : List (ℕ × ℚ)),
      List.Forall₂
        (fun e q => q.1 = e.1 ∧ (q.2 = e.2 ∨ q.2 = { e.2 with alert_sent := true }))
        l (alertLoop cd rv thr now fn l h).2.1 := by
  intro l
  induction l with
  | nil => intro h; exact List.Forall₂.nil
  | cons e rest ih =>
    intro h
    simp only [alertLoop]
    split
    · exact List.Forall₂.cons ⟨rfl, Or.inr rfl⟩ (ih _)
    · exact List.Forall₂.cons ⟨rfl, Or.inl rfl⟩ (ih _)

/-- **C9 counterexample.** `AlertManager.check_and_emit` does mutate a
`TrackedObject` it is given: line 82 sets `obj.alert_sent = True` when an
alert fires, so the map comes back changed. -/
theorem checkAndEmit_mutation_counterexample :
    (checkAndEmit (mkAlertManager 300 none 3) [(5, wObj1)] 10 1000).objs ≠ [(5, wObj1)]
    ∧ ((checkAndEmit (mkAlertManager 300 none 3) [(5, wObj1)] 10 1000).objs.map
        (fun p => p.2.alert_sent)) = [true]
    ∧ wObj1.alert_sent = false := by
  have heval : (checkAndEmit (mkAlertManager 300 none 3) [(5, wObj1)] 10 1000).objs
      = [(5, { wObj1 with alert_sent := true })] := by
    simp [checkAndEmit, alertStep, mkAlertManager, wObj1, valMismatch]
  refine ⟨?_, ?_, rfl⟩
  · rw [heval]
    intro h
    have hmap := congrArg (fun l => l.map (fun p : ℕ × TrackedObject => p.2.alert_sent)) h
    simp [wObj1] at hmap
  · rw [heval]
    simp

/-- **C9 (amended).** A `TrackedObject` is mutated by the Tracker during
`update()` and by `AlertManager.check_and_emit`, which flips `alert_sent`
to `true` on the objects it alerts for; `check_and_emit` changes no other
field of any object and preserves the ids and their order: every returned
entry equals its input entry or its input entry with `alert_sent := true`. -/
theorem checkAndEmit_mutates_only_alert_sent (am : AlertManager)
    (tracked : List (ℕ × TrackedObject)) (fn : ℕ) (now : ℚ) :
    List.Forall₂
      (fun e q => q.1 = e.1 ∧ (q.2 = e.2 ∨ q.2 = { e.2 with alert_sent := true }))
      tracked (checkAndEmit am tracked fn now).objs := by
  show List.Forall₂ _ tracked
    ((tracked.foldl
        (alertStep am.cooldown am.require_validation am.persistence_threshold now fn)
        (am.alert_history, [], [])).2.1)
  rw [foldl_alertStep_eq_alertLoop]
  simpa using alertLoop_objs_shape am.cooldown am.require_validation
    am.persistence_threshold now fn tracked am.alert_history

/-- **C10.** The cooldown gate reads the history with default timestamp `0`
and `_cleanup` drops every entry older than `2 × cooldown`: after any call,
every surviving history entry satisfies `now − v ≤ cooldown * 2`; and for a
still-tracked object with `alert_sent = True` whose history entry is gone
(collection implies `cooldown * 2 < now`), the next qualifying call fires
immediately — the cooldown is treated as expired. -/
theorem alert_history_gc_default_zero :
    (∀ (am : AlertManager) (tracked : List (ℕ × TrackedObject)) (fn : ℕ) (now : ℚ),
        ∀ e ∈ (checkAndEmit am tracked fn now).mgr.alert_history,
          now - e.2 ≤ am.cooldown * 2)
    ∧ (∀ (am : AlertManager) (oid : ℕ) (obj : TrackedObject)
          (l1 l2 : List (ℕ × TrackedObject)) (fn : ℕ) (now : ℚ),
        (∀ e ∈ l1, e.1 ≠ oid ∧ e.2.object_id ≠ oid) →
        (∀ e ∈ l2, e.1 ≠ oid ∧ e.2.object_id ≠ oid) →
        obj.object_id = oid →
        am.alert_history.lookup oid = none →
        0 ≤ am.cooldown → am.cooldown * 2 < now →
        am.persistence_threshold ≤ obj.persistence →
        obj.alert_sent = true →
        valMismatch am.require_validation obj.validation_type = false →
        ((checkAndEmit am (l1 ++ (oid, obj) :: l2) fn now).alerts.filter
            (fun p => p.id == oid)).length = 1) := by
  constructor
  · intro am tracked fn now e he
    have he2 : e ∈ ((tracked.foldl
        (alertStep am.cooldown am.require_validation am.persistence_threshold now fn)
        (am.alert_history, [], [])).1).filter
          (fun p => decide (¬ (now - p.2 > am.cooldown * 2))) := he
    have hp := List.of_mem_filter he2
    rw [decide_eq_true_eq] at hp
    exact not_lt.mp hp
  · intro am oid obj l1 l2 fn now hm1 hm2 hobj hnone hcd hgt hq1 _ hq3
    have hf : alertFires am.cooldown am.require_validation am.persistence_threshold now
        am.alert_history oid obj := by
      refine ⟨Nat.not_lt.mpr hq1, ?_, hq3⟩
      intro hc
      rcases hc with ⟨_, hlt⟩
      rw [hnone] at hlt
      simp only [Option.getD_none] at hlt
      rw [sub_zero] at hlt
      linarith
    have hk := checkAndEmit_key am l1 l2 oid obj fn now hm1 hm2 hobj
    rw [hk.1, if_pos hf]
    rfl

/-- Witness for C10: empty history, `alert_sent = True`, `now = 1000`
(`> 2·300`) — the alert fires immediately. -/
theorem alert_history_gc_default_zero_witness :
    ((checkAndEmit (mkAlertManager 300 none 3) [(5, wObj2)] 20 1000).alerts.filter
        (fun p => p.id == 5)).length = 1 := by
  refine alert_history_gc_default_zero.2 (mkAlertManager 300 none 3) 5 wObj2 [] [] 20 1000
    (by intro e he; simp at he) (by intro e he; simp at he) rfl rfl
    (by norm_num [mkAlertManager]) (by norm_num [mkAlertManager])
    (by norm_num [mkAlertManager, wObj2, wObj1]) rfl rfl
